import Mathlib

/-!
Shallow embedding of the RoboScript front-end (lexer, token parser,
line-based PeglibParser) and of the Arduino code generator, translated
from the C++ sources, with theorems checking the specification's claims.

Conventions: C++ `std::string` is `String`, `int` is `Int` (with
`Int.tdiv` for C++ truncating division and an explicit 32-bit range
check inside the `std::stoi` model), `std::vector`/`std::unordered_set`
are `List` (sets as insertion-ordered duplicate-free lists), exceptions
are an explicit error type threaded through `Except`, and the two
recursive-descent loops (token parser, line parser) take an explicit
fuel argument; fuel adequacy for the token parser is proved below.
-/

namespace Robo

/-- C `isspace`: space, \t, \n, \v, \f, \r. -/
def cIsSpace (c : Char) : Bool :=
  c = ' ' ∨ c = '\t' ∨ c = '\n' ∨ c = '\x0b' ∨ c = '\x0c' ∨ c = '\r'

/-- C `isdigit`. -/
def cIsDigit (c : Char) : Bool := '0' ≤ c ∧ c ≤ '9'

/-- C `isalpha` (ASCII). -/
def cIsAlpha (c : Char) : Bool := ('a' ≤ c ∧ c ≤ 'z') ∨ ('A' ≤ c ∧ c ≤ 'Z')

/-- C `isalnum` (ASCII). -/
def cIsAlnum (c : Char) : Bool := cIsAlpha c ∨ cIsDigit c

/-- `std::string::find(pat) != npos`: `pat` occurs as a substring of `s`. -/
def strContains (s pat : String) : Bool := decide (pat.data <:+: s.data)

/-- Model of `std::stoi`: skip C whitespace, optional sign, a non-empty
digit prefix; `none` when no digits follow (`std::invalid_argument`) or
the value leaves the 32-bit `int` range (`std::out_of_range`). -/
def stoi (s : String) : Option Int :=
  let cs := s.data.dropWhile cIsSpace
  let sign : Bool × List Char :=
    match cs with
    | '-' :: rest => (true, rest)
    | '+' :: rest => (false, rest)
    | _ => (false, cs)
  let ds := sign.2.takeWhile cIsDigit
  if ds = [] then none
  else
    let v : Nat := ds.foldl (fun a c => a * 10 + (c.toNat - '0'.toNat)) 0
    let n : Int := if sign.1 then -(v : Int) else (v : Int)
    if n < -2147483648 ∨ 2147483647 < n then none else some n

/-- C++ `int` division truncates toward zero. -/
def cppDiv (a b : Int) : Int := Int.tdiv a b

/-! ## AST model (include/ast.h)

One closed inductive for the `Statement` hierarchy; bodies are nested
statement lists exactly as in the C++ classes. -/

/-- `Condition` node: flat `left op right` triple of strings. -/
structure Condition where
  left : String
  op : String
  right : String
deriving DecidableEq, Repr

/-- The `Statement` class hierarchy as a closed sum. -/
inductive Stmt where
  | robotDecl (name : String)
  | move (direction : String) (distance : Int)
  | turn (direction : String) (angle : Int)
  | stop
  | ifStmt (condition : Condition) (thenBody elseBody : List Stmt)
  | whileStmt (condition : Condition) (body : List Stmt)
  | repeatStmt (times : Int) (body : List Stmt)
  | led (state color : String)
  | servo (name : String) (angle : Int)
  | motor (name : String) (speed : Int)
  | wait (duration : Int)
  | functionDef (name : String) (body : List Stmt)
  | call (name : String)
  | send (message : String)
deriving Repr

/-- `Program` node: the ordered statement list. -/
structure Program where
  statements : List Stmt
deriving Repr

mutual

/-- Every `Motor` node in a statement (bodies included) has its speed in
`[0,100]`. -/
def motorOkS : Stmt → Bool
  | .motor _ speed => decide (0 ≤ speed ∧ speed ≤ 100)
  | .ifStmt _ thenBody elseBody => motorOkL thenBody && motorOkL elseBody
  | .whileStmt _ body => motorOkL body
  | .repeatStmt _ body => motorOkL body
  | .functionDef _ body => motorOkL body
  | _ => true
termination_by s => 2 * sizeOf s

/-- `motorOkS` over a statement list. -/
def motorOkL : List Stmt → Bool
  | [] => true
  | s :: rest => motorOkS s && motorOkL rest
termination_by l => 2 * sizeOf l

end

/-! ## JSON model (src/ast.cpp), for the serialization claim -/

/-- Minimal JSON value model (nlohmann::json fragment used here). -/
inductive Json where
  | str (s : String)
  | num (n : Int)
  | arr (elems : List Json)
  | obj (fields : List (String × Json))
  | null
deriving Repr

/-- The keys of a JSON object (empty for non-objects). -/
def Json.keys : Json → List String
  | .obj fields => fields.map Prod.fst
  | _ => []

namespace LEDStatement

/-- `LEDStatement::toJson`: always `type` and `state`; `color` only when
the color string is non-empty. -/
def toJson (state color : String) : Json :=
  .obj ([("type", Json.str "LED"), ("state", Json.str state)] ++
    (if color ≠ "" then [("color", Json.str color)] else []))

end LEDStatement

/-! ## Arduino code generator (src/arduino_generator.cpp) -/

namespace ArduinoGenerator

def SERVO_PIN : Int := 9
def LED_PIN : Int := 13
def MOTOR_LEFT_FORWARD : Int := 5
def MOTOR_LEFT_BACKWARD : Int := 6
def MOTOR_RIGHT_FORWARD : Int := 10
def MOTOR_RIGHT_BACKWARD : Int := 11
def DISTANCE_SENSOR_PIN : Int := 14
def LIGHT_SENSOR_PIN : Int := 15

/-- The generator's mutable fields: indentation counter plus the three
output buffers (loop body, setup, hoisted declarations). -/
structure GenState where
  indentLevel : Int
  generatedCode : List String
  setupCode : List String
  variableDeclarations : List String
deriving DecidableEq, Repr

/-- `indent()`: `indentLevel * 2` spaces. -/
def indentStr (st : GenState) : String :=
  String.mk (List.replicate (st.indentLevel * 2).toNat ' ')

/-- `addLine`: append an indented line to the loop-body buffer. -/
def addLine (st : GenState) (code : String) : GenState :=
  { st with generatedCode := st.generatedCode ++ [indentStr st ++ code] }

/-- `addSetupLine`: append an indented line to the setup buffer. -/
def addSetupLine (st : GenState) (code : String) : GenState :=
  { st with setupCode := st.setupCode ++ [indentStr st ++ code] }

def increaseIndent (st : GenState) : GenState :=
  { st with indentLevel := st.indentLevel + 1 }

def decreaseIndent (st : GenState) : GenState :=
  { st with indentLevel := st.indentLevel - 1 }

/-- `generateRobotDeclaration`. -/
def generateRobotDeclaration (st : GenState) (name : String) : GenState :=
  addLine (addLine st ("// Robot: " ++ name)) "// Initializing robot systems..."

/-- `generateMove`. -/
def generateMove (st : GenState) (direction : String) (distance : Int) : GenState :=
  if direction = "forward" then
    let st := addLine st ("// Move forward: " ++ toString distance ++ " units")
    let st := addLine st ("digitalWrite(" ++ toString MOTOR_LEFT_FORWARD ++ ", HIGH);")
    let st := addLine st ("digitalWrite(" ++ toString MOTOR_RIGHT_FORWARD ++ ", HIGH);")
    let st := addLine st ("digitalWrite(" ++ toString MOTOR_LEFT_BACKWARD ++ ", LOW);")
    let st := addLine st ("digitalWrite(" ++ toString MOTOR_RIGHT_BACKWARD ++ ", LOW);")
    addLine st ("delay(" ++ toString (distance * 10) ++ ");")
  else if direction = "backward" then
    let st := addLine st ("// Move backward: " ++ toString distance ++ " units")
    let st := addLine st ("digitalWrite(" ++ toString MOTOR_LEFT_FORWARD ++ ", LOW);")
    let st := addLine st ("digitalWrite(" ++ toString MOTOR_RIGHT_FORWARD ++ ", LOW);")
    let st := addLine st ("digitalWrite(" ++ toString MOTOR_LEFT_BACKWARD ++ ", HIGH);")
    let st := addLine st ("digitalWrite(" ++ toString MOTOR_RIGHT_BACKWARD ++ ", HIGH);")
    addLine st ("delay(" ++ toString (distance * 10) ++ ");")
  else st

/-- `generateTurn` (the trailing delay is emitted for any direction). -/
def generateTurn (st : GenState) (direction : String) (angle : Int) : GenState :=
  let st :=
    if direction = "left" then
      let st := addLine st ("// Turn left: " ++ toString angle ++ " degrees")
      let st := addLine st ("digitalWrite(" ++ toString MOTOR_LEFT_FORWARD ++ ", LOW);")
      let st := addLine st ("digitalWrite(" ++ toString MOTOR_RIGHT_FORWARD ++ ", HIGH);")
      let st := addLine st ("digitalWrite(" ++ toString MOTOR_LEFT_BACKWARD ++ ", HIGH);")
      addLine st ("digitalWrite(" ++ toString MOTOR_RIGHT_BACKWARD ++ ", LOW);")
    else if direction = "right" then
      let st := addLine st ("// Turn right: " ++ toString angle ++ " degrees")
      let st := addLine st ("digitalWrite(" ++ toString MOTOR_LEFT_FORWARD ++ ", HIGH);")
      let st := addLine st ("digitalWrite(" ++ toString MOTOR_RIGHT_FORWARD ++ ", LOW);")
      let st := addLine st ("digitalWrite(" ++ toString MOTOR_LEFT_BACKWARD ++ ", LOW);")
      addLine st ("digitalWrite(" ++ toString MOTOR_RIGHT_BACKWARD ++ ", HIGH);")
    else st
  addLine st ("delay(" ++ toString (angle * 5) ++ ");")

/-- `generateStop`: the five-line stop sequence. -/
def generateStop (st : GenState) : GenState :=
  let st := addLine st "// Stop all motors"
  let st := addLine st ("digitalWrite(" ++ toString MOTOR_LEFT_FORWARD ++ ", LOW);")
  let st := addLine st ("digitalWrite(" ++ toString MOTOR_LEFT_BACKWARD ++ ", LOW);")
  let st := addLine st ("digitalWrite(" ++ toString MOTOR_RIGHT_FORWARD ++ ", LOW);")
  addLine st ("digitalWrite(" ++ toString MOTOR_RIGHT_BACKWARD ++ ", LOW);")

/-- `generateCondition`: substring-based sensor substitution on each
operand, then parenthesised `left op right`. -/
def generateCondition (condition : Condition) : String :=
  let left :=
    if strContains condition.left "sensor.distance" then
      "analogRead(" ++ toString DISTANCE_SENSOR_PIN ++ ")"
    else if strContains condition.left "sensor.light" then
      "analogRead(" ++ toString LIGHT_SENSOR_PIN ++ ")"
    else condition.left
  let right :=
    if strContains condition.right "sensor.distance" then
      "analogRead(" ++ toString DISTANCE_SENSOR_PIN ++ ")"
    else if strContains condition.right "sensor.light" then
      "analogRead(" ++ toString LIGHT_SENSOR_PIN ++ ")"
    else condition.right
  "(" ++ left ++ " " ++ condition.op ++ " " ++ right ++ ")"

/-- `generateLED`. -/
def generateLED (st : GenState) (state color : String) : GenState :=
  if state = "on" then
    let st := addLine st "// LED on"
    let st := if color ≠ "" then addLine st ("// Color: " ++ color) else st
    addLine st ("digitalWrite(" ++ toString LED_PIN ++ ", HIGH);")
  else if state = "off" then
    let st := addLine st "// LED off"
    addLine st ("digitalWrite(" ++ toString LED_PIN ++ ", LOW);")
  else st

/-- `generateServo`. -/
def generateServo (st : GenState) (name : String) (angle : Int) : GenState :=
  let st := addLine st ("// Servo " ++ name ++ " to angle " ++ toString angle)
  let st := addLine st ("servo.write(" ++ toString angle ++ ");")
  addLine st "delay(100);"

/-- `generateMotor`: percentage-to-PWM rescale by truncating division;
an `analogWrite` only for the motors named `left` or `right`. -/
def generateMotor (st : GenState) (name : String) (speed : Int) : GenState :=
  let pwmValue := cppDiv (speed * 255) 100
  let st := addLine st ("// Motor " ++ name ++ " speed: " ++ toString speed ++ "%")
  if name = "left" then
    addLine st ("analogWrite(" ++ toString MOTOR_LEFT_FORWARD ++ ", " ++ toString pwmValue ++ ");")
  else if name = "right" then
    addLine st ("analogWrite(" ++ toString MOTOR_RIGHT_FORWARD ++ ", " ++ toString pwmValue ++ ");")
  else st

/-- `generateWait`. -/
def generateWait (st : GenState) (duration : Int) : GenState :=
  addLine st ("delay(" ++ toString duration ++ ");  // Wait " ++ toString duration ++ "ms")

/-- `generateCall`. -/
def generateCall (st : GenState) (name : String) : GenState :=
  addLine st (name ++ "();  // Call function")

/-- `generateSend`. -/
def generateSend (st : GenState) (message : String) : GenState :=
  addLine st ("Serial.println(\"" ++ message ++ "\");")

mutual

/-- `generateStatement`: dispatch on the node kind. -/
def generateStatement (st : GenState) (s : Stmt) : GenState :=
  match s with
  | .robotDecl name => generateRobotDeclaration st name
  | .move direction distance => generateMove st direction distance
  | .turn direction angle => generateTurn st direction angle
  | .stop => generateStop st
  | .ifStmt condition thenBody elseBody => generateIf st condition thenBody elseBody
  | .whileStmt condition body => generateWhile st condition body
  | .repeatStmt times body => generateRepeat st times body
  | .led state color => generateLED st state color
  | .servo name angle => generateServo st name angle
  | .motor name speed => generateMotor st name speed
  | .wait duration => generateWait st duration
  | .functionDef name body => generateFunction st name body
  | .call name => generateCall st name
  | .send message => generateSend st message
termination_by 2 * sizeOf s

/-- `generateIf`. -/
def generateIf (st : GenState) (condition : Condition) (thenBody elseBody : List Stmt) : GenState :=
  let st := addLine st ("if " ++ generateCondition condition ++ " \x7b")
  let st := increaseIndent st
  let st := generateBlock st thenBody
  let st := decreaseIndent st
  let st :=
    if elseBody.isEmpty then st
    else
      let st := addLine st "\x7d else \x7b"
      let st := increaseIndent st
      let st := generateBlock st elseBody
      decreaseIndent st
  addLine st "\x7d"
termination_by 2 * (sizeOf thenBody + sizeOf elseBody) + 1

/-- `generateWhile`. -/
def generateWhile (st : GenState) (condition : Condition) (body : List Stmt) : GenState :=
  let st := addLine st ("while " ++ generateCondition condition ++ " \x7b")
  let st := increaseIndent st
  let st := generateBlock st body
  let st := decreaseIndent st
  addLine st "\x7d"
termination_by 2 * sizeOf body + 1

/-- `generateRepeat`: a bounded `for` loop with the literal `times` bound. -/
def generateRepeat (st : GenState) (times : Int) (body : List Stmt) : GenState :=
  let st := addLine st ("for (int i = 0; i < " ++ toString times ++ "; i++) \x7b")
  let st := increaseIndent st
  let st := generateBlock st body
  let st := decreaseIndent st
  addLine st "\x7d"
termination_by 2 * sizeOf body + 1

/-- The statement loop inside `generateFunction`: emit a body statement
into the loop-body buffer, then pop everything the statement appended
(back first, so each statement's lines end up reversed) into the
accumulated function text. -/
def generateFunctionLoop (st : GenState) (funcCode : String) (body : List Stmt) :
    GenState × String :=
  match body with
  | [] => (st, funcCode)
  | s :: rest =>
    let savedSize := st.generatedCode.length
    let st' := generateStatement st s
    let newLines := st'.generatedCode.drop savedSize
    generateFunctionLoop { st' with generatedCode := st'.generatedCode.take savedSize }
      (funcCode ++ String.join (newLines.reverse.map (fun l => l ++ "\n"))) rest
termination_by 2 * sizeOf body

/-- `generateFunction`: hoist the definition into `variableDeclarations`,
emitting the body at indentation level 1 and restoring the saved level. -/
def generateFunction (st : GenState) (name : String) (body : List Stmt) : GenState :=
  let st1 := { st with variableDeclarations :=
    st.variableDeclarations ++ ["void " ++ name ++ "() \x7b"] }
  let savedIndent := st1.indentLevel
  let st2 := { st1 with indentLevel := 1 }
  let res := generateFunctionLoop st2 "" body
  let st3 := { res.1 with indentLevel := savedIndent }
  { st3 with variableDeclarations := st3.variableDeclarations ++ [res.2, "\x7d", ""] }
termination_by 2 * sizeOf body + 1

/-- `generateBlock`: fold `generateStatement` over a statement list. -/
def generateBlock (st : GenState) (statements : List Stmt) : GenState :=
  match statements with
  | [] => st
  | s :: rest => generateBlock (generateStatement st s) rest
termination_by 2 * sizeOf statements

end

/-- The state after `generate` has emitted the setup lines and walked the
program (before assembling the final text). -/
def generateState (program : Program) : GenState :=
  let st : GenState := ⟨0, [], [], []⟩
  let st := addSetupLine st "// Initialize pins"
  let st := addSetupLine st ("pinMode(" ++ toString LED_PIN ++ ", OUTPUT);")
  let st := addSetupLine st ("pinMode(" ++ toString MOTOR_LEFT_FORWARD ++ ", OUTPUT);")
  let st := addSetupLine st ("pinMode(" ++ toString MOTOR_LEFT_BACKWARD ++ ", OUTPUT);")
  let st := addSetupLine st ("pinMode(" ++ toString MOTOR_RIGHT_FORWARD ++ ", OUTPUT);")
  let st := addSetupLine st ("pinMode(" ++ toString MOTOR_RIGHT_BACKWARD ++ ", OUTPUT);")
  let st := addSetupLine st "Serial.begin(9600);"
  let st := addSetupLine st "Serial.println(\"Robot initialized\");"
  generateBlock st program.statements

/-- `generate`: the assembled Arduino source text. -/
def generate (program : Program) : String :=
  let st := generateState program
  "#include <Servo.h>\n\n" ++
  "// Pin Definitions\n" ++
  "#define LED_PIN " ++ toString LED_PIN ++ "\n" ++
  "#define MOTOR_LEFT_FORWARD " ++ toString MOTOR_LEFT_FORWARD ++ "\n" ++
  "#define MOTOR_LEFT_BACKWARD " ++ toString MOTOR_LEFT_BACKWARD ++ "\n" ++
  "#define MOTOR_RIGHT_FORWARD " ++ toString MOTOR_RIGHT_FORWARD ++ "\n" ++
  "#define MOTOR_RIGHT_BACKWARD " ++ toString MOTOR_RIGHT_BACKWARD ++ "\n" ++
  "#define DISTANCE_SENSOR_PIN " ++ toString DISTANCE_SENSOR_PIN ++ "\n" ++
  "#define LIGHT_SENSOR_PIN " ++ toString LIGHT_SENSOR_PIN ++ "\n\n" ++
  "// Global Variables\n" ++
  "Servo servo;\n\n" ++
  String.join (st.variableDeclarations.map (fun v => v ++ "\n")) ++
  "void setup() \x7b\n" ++
  String.join (st.setupCode.map (fun l => l ++ "\n")) ++
  "\x7d\n\n" ++
  "void loop() \x7b\n" ++
  (if st.generatedCode ≠ [] then String.join (st.generatedCode.map (fun l => l ++ "\n"))
   else "  // Your robot code here\n") ++
  "\x7d\n"

/-- The frame a generator step must respect: indentation and setup
buffer restored, loop-body and hoisted buffers only appended to. -/
def GenFrame (st st' : GenState) : Prop :=
  st'.indentLevel = st.indentLevel ∧ st'.setupCode = st.setupCode ∧
  st.generatedCode <+: st'.generatedCode ∧
  st.variableDeclarations <+: st'.variableDeclarations

end ArduinoGenerator

/-! ## Tokens (include/lexer.h) -/

/-- `TokenType`. -/
inductive TokType where
  | keyword
  | identifier
  | number
  | string
  | operator
  | lparen
  | rparen
  | comma
  | dot
  | eof
deriving DecidableEq, Repr

/-- `Token` with position metadata. -/
structure Tok where
  type : TokType
  value : String
  line : Nat
  column : Nat
deriving DecidableEq, Repr

/-- `Token::typeToString`. -/
def typeToString : TokType → String
  | .keyword => "KEYWORD"
  | .identifier => "IDENTIFIER"
  | .number => "NUMBER"
  | .string => "STRING"
  | .operator => "OPERATOR"
  | .lparen => "LPAREN"
  | .rparen => "RPAREN"
  | .comma => "COMMA"
  | .dot => "DOT"
  | .eof => "EOF"

/-- The exception taxonomy the parser can raise (`exceptions.h`), plus
`stdExc` for a raw `std::exception` (a failed `std::stoi`) before the
dispatcher's catch-all rewraps it, and `outOfFuel` for the model's
recursion budget (proved unreachable below at the canonical fuel). -/
inductive PError where
  | parserError (msg : String) (line column : Nat) (expected found : String)
  | semanticError (msg context : String)
  | stdExc (msg : String)
  | outOfFuel
deriving DecidableEq, Repr

/-- The error is one of the two exceptions the C++ parser actually
throws: a `ParserException` or a `SemanticException`. -/
def PError.isException : PError → Prop
  | .parserError .. => True
  | .semanticError .. => True
  | .stdExc _ => False
  | .outOfFuel => False

/-! ## Token parser (src/parser.cpp, duplicated in src/main.cpp) -/

namespace Parser

/-- The parser's mutable fields: position plus the two accumulator sets. -/
structure PState where
  pos : Nat
  declaredFunctions : List String
  calledFunctions : List String
deriving DecidableEq, Repr

/-- The static EOF token `peek` returns past the end. -/
def eofTok : Tok := ⟨.eof, "EOF", 0, 0⟩

/-- `peek()`. -/
def peek (tokens : List Tok) (s : PState) : Tok :=
  tokens.getD s.pos eofTok

/-- `consume()`: take the current token, advancing. -/
def consume (tokens : List Tok) (s : PState) : Except PError (Tok × PState) :=
  if tokens.length ≤ s.pos then
    .error (.parserError "Unexpected end of input" 0 0 "token" "EOF")
  else .ok (tokens.getD s.pos eofTok, { s with pos := s.pos + 1 })

/-- `consume(expected)`: value-checked consume. -/
def consumeExpected (tokens : List Tok) (expected : String) (s : PState) :
    Except PError (Tok × PState) :=
  let token := peek tokens s
  if token.value ≠ expected then
    .error (.parserError "Unexpected token" token.line token.column expected token.value)
  else .ok (token, { s with pos := s.pos + 1 })

/-- `check(value)`. -/
def checkV (tokens : List Tok) (s : PState) (value : String) : Bool :=
  (peek tokens s).value = value

/-- `check(type)`. -/
def checkT (tokens : List Tok) (s : PState) (t : TokType) : Bool :=
  (peek tokens s).type = t

/-- `std::unordered_set::insert` at the membership level. -/
def insertName (l : List String) (n : String) : List String :=
  if l.contains n then l else l ++ [n]

/-- `parseRobotDeclaration`. -/
def parseRobotDeclaration (tokens : List Tok) (s : PState) :
    Except PError (Stmt × PState) :=
  match consumeExpected tokens "ROBOT" s with
  | .error e => .error e
  | .ok (_, s) =>
    match consume tokens s with
    | .error e => .error e
    | .ok (nameToken, s) => .ok (.robotDecl nameToken.value, s)

/-- `parseMoveStatement`. -/
def parseMoveStatement (tokens : List Tok) (s : PState) :
    Except PError (Stmt × PState) :=
  match consumeExpected tokens "MOVE" s with
  | .error e => .error e
  | .ok (_, s) =>
    match consume tokens s with
    | .error e => .error e
    | .ok (dirToken, s) =>
      if dirToken.value ≠ "forward" ∧ dirToken.value ≠ "backward" then
        .error (.semanticError ("Invalid movement direction: " ++ dirToken.value)
          "Expected 'forward' or 'backward'")
      else
        match consume tokens s with
        | .error e => .error e
        | .ok (distToken, s) =>
          if distToken.type ≠ .number then
            .error (.parserError "Movement distance must be a number"
              distToken.line distToken.column "NUMBER" (typeToString distToken.type))
          else
            match stoi distToken.value with
            | none => .error (.stdExc "stoi")
            | some distance =>
              if distance < 0 then
                .error (.semanticError "Movement distance must be positive"
                  ("Found: " ++ toString distance))
              else .ok (.move dirToken.value distance, s)

/-- `parseTurnStatement`. -/
def parseTurnStatement (tokens : List Tok) (s : PState) :
    Except PError (Stmt × PState) :=
  match consumeExpected tokens "TURN" s with
  | .error e => .error e
  | .ok (_, s) =>
    match consume tokens s with
    | .error e => .error e
    | .ok (dirToken, s) =>
      if dirToken.value ≠ "left" ∧ dirToken.value ≠ "right" then
        .error (.semanticError ("Invalid turn direction: " ++ dirToken.value)
          "Expected 'left' or 'right'")
      else
        match consume tokens s with
        | .error e => .error e
        | .ok (angleToken, s) =>
          if angleToken.type ≠ .number then
            .error (.parserError "Turn angle must be a number"
              angleToken.line angleToken.column "NUMBER" (typeToString angleToken.type))
          else
            match stoi angleToken.value with
            | none => .error (.stdExc "stoi")
            | some angle => .ok (.turn dirToken.value angle, s)

/-- `parseStopStatement`. -/
def parseStopStatement (tokens : List Tok) (s : PState) :
    Except PError (Stmt × PState) :=
  match consumeExpected tokens "STOP" s with
  | .error e => .error e
  | .ok (_, s) => .ok (.stop, s)

/-- `parseCondition`: exactly three raw tokens. -/
def parseCondition (tokens : List Tok) (s : PState) :
    Except PError (Condition × PState) :=
  match consume tokens s with
  | .error e => .error e
  | .ok (left, s) =>
    match consume tokens s with
    | .error e => .error e
    | .ok (op, s) =>
      match consume tokens s with
      | .error e => .error e
      | .ok (right, s) => .ok (⟨left.value, op.value, right.value⟩, s)

/-- `parseLEDStatement`. -/
def parseLEDStatement (tokens : List Tok) (s : PState) :
    Except PError (Stmt × PState) :=
  match consumeExpected tokens "LED" s with
  | .error e => .error e
  | .ok (_, s) =>
    match consume tokens s with
    | .error e => .error e
    | .ok (stateToken, s) =>
      if stateToken.value ≠ "on" ∧ stateToken.value ≠ "off" then
        .error (.semanticError "LED state must be 'on' or 'off'"
          ("Found: " ++ stateToken.value))
      else
        if checkT tokens s .identifier then
          match consume tokens s with
          | .error e => .error e
          | .ok (colorToken, s) => .ok (.led stateToken.value colorToken.value, s)
        else .ok (.led stateToken.value "", s)

/-- `parseServoStatement`. -/
def parseServoStatement (tokens : List Tok) (s : PState) :
    Except PError (Stmt × PState) :=
  match consumeExpected tokens "SERVO" s with
  | .error e => .error e
  | .ok (_, s) =>
    match consume tokens s with
    | .error e => .error e
    | .ok (nameToken, s) =>
      match consumeExpected tokens "TO" s with
      | .error e => .error e
      | .ok (_, s) =>
        match consume tokens s with
        | .error e => .error e
        | .ok (angleToken, s) =>
          if angleToken.type ≠ .number then
            .error (.parserError "Servo angle must be a number"
              angleToken.line angleToken.column "NUMBER" (typeToString angleToken.type))
          else
            match stoi angleToken.value with
            | none => .error (.stdExc "stoi")
            | some angle => .ok (.servo nameToken.value angle, s)

/-- `parseMotorStatement`: rejects speeds outside `[0,100]` with a
`SemanticException`. -/
def parseMotorStatement (tokens : List Tok) (s : PState) :
    Except PError (Stmt × PState) :=
  match consumeExpected tokens "MOTOR" s with
  | .error e => .error e
  | .ok (_, s) =>
    match consume tokens s with
    | .error e => .error e
    | .ok (nameToken, s) =>
      match consumeExpected tokens "SPEED" s with
      | .error e => .error e
      | .ok (_, s) =>
        match consume tokens s with
        | .error e => .error e
        | .ok (speedToken, s) =>
          if speedToken.type ≠ .number then
            .error (.parserError "Motor speed must be a number"
              speedToken.line speedToken.column "NUMBER" (typeToString speedToken.type))
          else
            match stoi speedToken.value with
            | none => .error (.stdExc "stoi")
            | some speed =>
              if speed < 0 ∨ 100 < speed then
                .error (.semanticError "Motor speed must be between 0 and 100"
                  ("Found: " ++ toString speed))
              else .ok (.motor nameToken.value speed, s)

/-- `parseWaitStatement`. -/
def parseWaitStatement (tokens : List Tok) (s : PState) :
    Except PError (Stmt × PState) :=
  match consumeExpected tokens "WAIT" s with
  | .error e => .error e
  | .ok (_, s) =>
    match consume tokens s with
    | .error e => .error e
    | .ok (durationToken, s) =>
      if durationToken.type ≠ .number then
        .error (.parserError "Wait duration must be a number"
          durationToken.line durationToken.column "NUMBER" (typeToString durationToken.type))
      else
        match stoi durationToken.value with
        | none => .error (.stdExc "stoi")
        | some duration => .ok (.wait duration, s)

/-- `parseCallStatement`: registers the callee into `calledFunctions`. -/
def parseCallStatement (tokens : List Tok) (s : PState) :
    Except PError (Stmt × PState) :=
  match consumeExpected tokens "CALL" s with
  | .error e => .error e
  | .ok (_, s) =>
    match consume tokens s with
    | .error e => .error e
    | .ok (nameToken, s) =>
      .ok (.call nameToken.value,
        { s with calledFunctions := insertName s.calledFunctions nameToken.value })

/-- `parseSendStatement`. -/
def parseSendStatement (tokens : List Tok) (s : PState) :
    Except PError (Stmt × PState) :=
  match consumeExpected tokens "SEND" s with
  | .error e => .error e
  | .ok (_, s) =>
    match consumeExpected tokens "message" s with
    | .error e => .error e
    | .ok (_, s) =>
      match consume tokens s with
      | .error e => .error e
      | .ok (msgToken, s) =>
        if msgToken.type ≠ .string then
          .error (.parserError "Send message must be a string"
            msgToken.line msgToken.column "STRING" (typeToString msgToken.type))
        else .ok (.send msgToken.value, s)

/-- The tail of `parseStatement`: a successfully dispatched statement is
wrapped in `some`; a raw `std::exception` escaping the dispatch is rewrapped
as a `ParserException` carrying the dispatch token's position. -/
def wrapStmt (token : Tok) (r : Except PError (Stmt × PState)) :
    Except PError (Option Stmt × PState) :=
  match r with
  | .ok (st, s') => .ok (some st, s')
  | .error (.stdExc msg) =>
    .error (.parserError ("Error parsing statement: " ++ msg)
      token.line token.column "Valid statement" token.value)
  | .error e => .error e

mutual

/-- `parseStatement`: keyword dispatch; `none` at EOF or a bare `END`;
the catch-all rewraps a raw `std::exception` as a `ParserException`. -/
def parseStatementF : Nat → List Tok → PState → Except PError (Option Stmt × PState)
  | 0, _, _ => .error .outOfFuel
  | fuel + 1, tokens, s =>
    let token := peek tokens s
    if token.type = .eof then .ok (none, s)
    else if token.value = "END" then .ok (none, s)
    else
      wrapStmt token
        (if token.value = "ROBOT" then parseRobotDeclaration tokens s
        else if token.value = "MOVE" then parseMoveStatement tokens s
        else if token.value = "TURN" then parseTurnStatement tokens s
        else if token.value = "STOP" then parseStopStatement tokens s
        else if token.value = "IF" then parseIfStatementF fuel tokens s
        else if token.value = "WHILE" then parseWhileStatementF fuel tokens s
        else if token.value = "REPEAT" then parseRepeatStatementF fuel tokens s
        else if token.value = "LED" then parseLEDStatement tokens s
        else if token.value = "SERVO" then parseServoStatement tokens s
        else if token.value = "MOTOR" then parseMotorStatement tokens s
        else if token.value = "WAIT" then parseWaitStatement tokens s
        else if token.value = "FUNCTION" then parseFunctionDefF fuel tokens s
        else if token.value = "CALL" then parseCallStatement tokens s
        else if token.value = "SEND" then parseSendStatement tokens s
        else
          .error (.parserError "Unknown statement type" token.line token.column
            "Valid statement keyword" token.value))

/-- `parseBlock(terminator)`: statements until the terminator,
`EOF`, or the `END`/`ELSE`/`DO` safety check; a `nullptr` statement
ends the block (the C++ loop then breaks or exits its condition). -/
def parseBlockF : Nat → List Tok → String → PState → Except PError (List Stmt × PState)
  | 0, _, _, _ => .error .outOfFuel
  | fuel + 1, tokens, terminator, s =>
    let t := peek tokens s
    if t.value = terminator ∨ t.value = "EOF" ∨ t.type = .eof then .ok ([], s)
    else if t.value = "END" ∨ t.value = "ELSE" ∨ t.value = "DO" then .ok ([], s)
    else
      match parseStatementF fuel tokens s with
      | .error e => .error e
      | .ok (none, s') => .ok ([], s')
      | .ok (some st, s') =>
        match parseBlockF fuel tokens terminator s' with
        | .error e => .error e
        | .ok (rest, s'') => .ok (st :: rest, s'')

/-- `parseIfStatement`. -/
def parseIfStatementF : Nat → List Tok → PState → Except PError (Stmt × PState)
  | 0, _, _ => .error .outOfFuel
  | fuel + 1, tokens, s =>
    match consumeExpected tokens "IF" s with
    | .error e => .error e
    | .ok (_, s) =>
      match parseCondition tokens s with
      | .error e => .error e
      | .ok (condition, s) =>
        match consumeExpected tokens "THEN" s with
        | .error e => .error e
        | .ok (_, s) =>
          match parseBlockF fuel tokens "ELSE" s with
          | .error e => .error e
          | .ok (thenBody, s) =>
            match (if checkV tokens s "ELSE" then
                match consumeExpected tokens "ELSE" s with
                | .error e => .error e
                | .ok (_, s) => parseBlockF fuel tokens "END" s
              else (.ok ([], s) : Except PError (List Stmt × PState))) with
            | .error e => .error e
            | .ok (elseBody, s) =>
              match consumeExpected tokens "END" s with
              | .error e => .error e
              | .ok (_, s) => .ok (.ifStmt condition thenBody elseBody, s)

/-- `parseWhileStatement`. -/
def parseWhileStatementF : Nat → List Tok → PState → Except PError (Stmt × PState)
  | 0, _, _ => .error .outOfFuel
  | fuel + 1, tokens, s =>
    match consumeExpected tokens "WHILE" s with
    | .error e => .error e
    | .ok (_, s) =>
      match parseCondition tokens s with
      | .error e => .error e
      | .ok (condition, s) =>
        match consumeExpected tokens "DO" s with
        | .error e => .error e
        | .ok (_, s) =>
          match parseBlockF fuel tokens "END" s with
          | .error e => .error e
          | .ok (body, s) =>
            match consumeExpected tokens "END" s with
            | .error e => .error e
            | .ok (_, s) => .ok (.whileStmt condition body, s)

/-- `parseRepeatStatement`. -/
def parseRepeatStatementF : Nat → List Tok → PState → Except PError (Stmt × PState)
  | 0, _, _ => .error .outOfFuel
  | fuel + 1, tokens, s =>
    match consumeExpected tokens "REPEAT" s with
    | .error e => .error e
    | .ok (_, s) =>
      match consume tokens s with
      | .error e => .error e
      | .ok (timesToken, s) =>
        if timesToken.type ≠ .number then
          .error (.parserError "Repeat count must be a number"
            timesToken.line timesToken.column "NUMBER" (typeToString timesToken.type))
        else
          match stoi timesToken.value with
          | none => .error (.stdExc "stoi")
          | some times =>
            match consumeExpected tokens "TIMES" s with
            | .error e => .error e
            | .ok (_, s) =>
              match parseBlockF fuel tokens "END" s with
              | .error e => .error e
              | .ok (body, s) =>
                match consumeExpected tokens "END" s with
                | .error e => .error e
                | .ok (_, s) => .ok (.repeatStmt times body, s)

/-- `parseFunctionDef`: registers the name into `declaredFunctions`
before parsing the body. -/
def parseFunctionDefF : Nat → List Tok → PState → Except PError (Stmt × PState)
  | 0, _, _ => .error .outOfFuel
  | fuel + 1, tokens, s =>
    match consumeExpected tokens "FUNCTION" s with
    | .error e => .error e
    | .ok (_, s) =>
      match consume tokens s with
      | .error e => .error e
      | .ok (nameToken, s) =>
        match parseBlockF fuel tokens "END"
            { s with declaredFunctions := insertName s.declaredFunctions nameToken.value } with
        | .error e => .error e
        | .ok (body, s) =>
          match consumeExpected tokens "END" s with
          | .error e => .error e
          | .ok (_, s) => .ok (.functionDef nameToken.value body, s)

end

/-- The top-level statement loop of `parse()`. -/
def parseTopF : Nat → List Tok → PState → Except PError (List Stmt × PState)
  | 0, _, _ => .error .outOfFuel
  | fuel + 1, tokens, s =>
    if ¬ checkV tokens s "EOF" ∧ (peek tokens s).type ≠ .eof ∧ ¬ checkV tokens s "END" then
      match parseStatementF fuel tokens s with
      | .error e => .error e
      | .ok (some st, s') =>
        match parseTopF fuel tokens s' with
        | .error e => .error e
        | .ok (rest, s'') => .ok (st :: rest, s'')
      | .ok (none, s') => parseTopF fuel tokens s'
    else .ok ([], s)

/-- The `availableFuncs` string of `semanticAnalysis`. -/
def availableFuncsString (declared : List String) : String :=
  if declared = [] then "none" else String.intercalate ", " declared

/-- `semanticAnalysis`: the first called-but-undeclared name (in
registration order) produces the `SemanticException`; `none` means the
pass succeeds. -/
def semanticAnalysisCheck (declared called : List String) : Option PError :=
  match called.find? (fun n => !(declared.contains n)) with
  | some n =>
    some (.semanticError ("Function '" ++ n ++ "' is called but never defined")
      ("Available functions: " ++ availableFuncsString declared))
  | none => none

def initState : PState := ⟨0, [], []⟩

/-- A recursion budget sufficient for any token list (proved below). -/
def canonicalFuel (tokens : List Tok) : Nat := 3 * tokens.length + 4

/-- `parse()` at an explicit fuel: the top-level loop, the optional final
`END`, then the whole-program semantic pass. -/
def parseF (fuel : Nat) (tokens : List Tok) : Except PError Program :=
  match parseTopF fuel tokens initState with
  | .error e => .error e
  | .ok (stmts, s) =>
    let s := if checkV tokens s "END" then { s with pos := s.pos + 1 } else s
    match semanticAnalysisCheck s.declaredFunctions s.calledFunctions with
    | some e => .error e
    | none => .ok ⟨stmts⟩

/-- `Parser::parse`. -/
def parse (tokens : List Tok) : Except PError Program :=
  parseF (canonicalFuel tokens) tokens

end Parser

/-! ## Lexer (src/lexer.cpp) -/

namespace Lexer

/-- `LexerException`, plus the model's lexing budget marker. -/
inductive LexErr where
  | lexerError (msg : String) (line column : Nat) (invalidChar : Char)
  | fuelExhausted
deriving DecidableEq, Repr

def KEYWORDS : List String :=
  ["ROBOT", "MOVE", "TURN", "STOP", "IF", "THEN", "ELSE", "END",
   "WHILE", "DO", "REPEAT", "TIMES", "FUNCTION", "CALL", "LED",
   "SERVO", "MOTOR", "SPEED", "WAIT", "SEND", "TO", "forward",
   "backward", "left", "right", "on", "off", "sensor", "message"]

/-- The lexer's cursor: remaining characters plus line/column. -/
structure LexState where
  src : List Char
  line : Nat
  column : Nat
deriving DecidableEq, Repr

/-- `advance()`. -/
def advance (st : LexState) : LexState :=
  match st.src with
  | [] => st
  | c :: rest =>
    if c = '\n' then ⟨rest, st.line + 1, 1⟩ else ⟨rest, st.line, st.column + 1⟩

/-- `skipComment`'s scan to past the newline. -/
def dropLine : List Char → Nat → Nat → LexState
  | [], line, column => ⟨[], line, column⟩
  | c :: rest, line, column =>
    if c = '\n' then ⟨rest, line + 1, 1⟩ else dropLine rest line (column + 1)

/-- `skipWhitespace` interleaved with the `#`-comment loop of
`getNextToken`, on an explicit budget (each step consumes at least one
character, so `length + 1` always suffices). -/
def skipWsComF : Nat → List Char → Nat → Nat → LexState
  | 0, cs, line, column => ⟨cs, line, column⟩
  | _ + 1, [], line, column => ⟨[], line, column⟩
  | fuel + 1, c :: rest, line, column =>
    if cIsSpace c then
      if c = '\n' then skipWsComF fuel rest (line + 1) 1
      else skipWsComF fuel rest line (column + 1)
    else if c = '#' then
      let st := dropLine rest line (column + 1)
      skipWsComF fuel st.src st.line st.column
    else ⟨c :: rest, line, column⟩

/-- The whitespace-and-comment skip at its sufficient budget. -/
def skipWsCom (cs : List Char) (line column : Nat) : LexState :=
  skipWsComF (cs.length + 1) cs line column

/-- `readNumber`. -/
def readNumber (st : LexState) : Tok × LexState :=
  let ds := st.src.takeWhile cIsDigit
  (⟨.number, String.mk ds, st.line, st.column⟩,
   ⟨st.src.dropWhile cIsDigit, st.line, st.column + ds.length⟩)

/-- An identifier character: alnum, `_` or `.`. -/
def cIsIdent (c : Char) : Bool := cIsAlnum c ∨ c = '_' ∨ c = '.'

/-- `readIdentifier` (keyword lookup included). -/
def readIdentifier (st : LexState) : Tok × LexState :=
  let cs := st.src.takeWhile cIsIdent
  let ident := String.mk cs
  let type : TokType := if KEYWORDS.contains ident then .keyword else .identifier
  (⟨type, ident, st.line, st.column⟩,
   ⟨st.src.dropWhile cIsIdent, st.line, st.column + cs.length⟩)

/-- The scan loop of `readString` (after the opening quote): escape
handling, `none` on an unterminated literal. -/
def readStrLoop : List Char → Nat → Nat → List Char → Option (List Char × LexState)
  | [], _, _, _ => none
  | '"' :: rest, line, column, acc => some (acc.reverse, ⟨rest, line, column + 1⟩)
  | '\\' :: [], _, _, _ => none
  | '\\' :: d :: rest, line, column, acc =>
    let c : Char :=
      if d = 'n' then '\n'
      else if d = 't' then '\t'
      else if d = '\\' then '\\'
      else if d = '"' then '"'
      else d
    let pos : Nat × Nat := if d = '\n' then (line + 1, 1) else (line, column + 2)
    readStrLoop rest pos.1 pos.2 (c :: acc)
  | c :: rest, line, column, acc =>
    if c = '\n' then readStrLoop rest (line + 1) 1 (c :: acc)
    else readStrLoop rest line (column + 1) (c :: acc)

/-- `readString`. -/
def readString (st : LexState) : Except LexErr (Tok × LexState) :=
  match st.src with
  | '"' :: rest =>
    match readStrLoop rest st.line (st.column + 1) [] with
    | some (content, st') => .ok (⟨.string, String.mk content, st.line, st.column⟩, st')
    | none => .error (.lexerError "Unterminated string literal" st.line st.column '\x00')
  | _ => .error (.lexerError "Unterminated string literal" st.line st.column '\x00')

/-- `getNextToken`. -/
def getNextToken (st : LexState) : Except LexErr (Tok × LexState) :=
  let st := skipWsCom st.src st.line st.column
  match st.src with
  | [] => .ok (⟨.eof, "EOF", st.line, st.column⟩, st)
  | ch :: _ =>
    if cIsDigit ch then .ok (readNumber st)
    else if cIsAlpha ch ∨ ch = '_' then .ok (readIdentifier st)
    else if ch = '"' then readString st
    else if ch = '(' then .ok (⟨.lparen, "(", st.line, st.column⟩, advance st)
    else if ch = ')' then .ok (⟨.rparen, ")", st.line, st.column⟩, advance st)
    else if ch = ',' then .ok (⟨.comma, ",", st.line, st.column⟩, advance st)
    else if ch = '.' then .ok (⟨.dot, ".", st.line, st.column⟩, advance st)
    else if ch = '+' ∨ ch = '-' ∨ ch = '*' ∨ ch = '/' ∨ ch = '<' ∨ ch = '>' ∨ ch = '=' then
      .ok (⟨.operator, String.mk [ch], st.line, st.column⟩, advance st)
    else .error (.lexerError "Invalid character" st.line st.column ch)

/-- The `tokenize` loop. -/
def tokenizeF : Nat → LexState → Except LexErr (List Tok)
  | 0, _ => .error .fuelExhausted
  | fuel + 1, st =>
    match getNextToken st with
    | .error e => .error e
    | .ok (tok, st') =>
      if tok.type = .eof then .ok [tok]
      else
        match tokenizeF fuel st' with
        | .error e => .error e
        | .ok rest => .ok (tok :: rest)

/-- `Lexer::tokenize`. -/
def tokenize (code : String) : Except LexErr (List Tok) :=
  tokenizeF (code.data.length + 1) ⟨code.data, 1, 1⟩

end Lexer

/-! ## Line-based PeglibParser (src/peglib_parser.cpp) -/

namespace PeglibParser

/-- The whitespace set of the file's `trim` helper. -/
def isTrimWs (c : Char) : Bool := c = ' ' ∨ c = '\t' ∨ c = '\r' ∨ c = '\n'

/-- `trim`. -/
def trim (str : String) : String :=
  String.mk (((str.data.dropWhile isTrimWs).reverse.dropWhile isTrimWs).reverse)

/-- The delimiter scan under `std::getline`: the raw pieces between
delimiter occurrences. -/
def splitChar (delimiter : Char) : List Char → List Char → List (List Char)
  | [], acc => [acc.reverse]
  | c :: rest, acc =>
    if c = delimiter then acc.reverse :: splitChar delimiter rest []
    else splitChar delimiter rest (c :: acc)

/-- `split`: split on the delimiter, trim pieces, drop empties. -/
def split (str : String) (delimiter : Char) : List String :=
  ((splitChar delimiter str.data []).map (fun cs => trim (String.mk cs))).filter
    (fun t => t ≠ "")

/-- `line.find(kw) == 0`: the line starts with the keyword. -/
def startsWithKw (line kw : String) : Bool := kw.data.isPrefixOf line.data

/-- The line preprocessing of `parse`: split the source into trimmed,
non-empty lines whose first character is not `#`. -/
def sourceLines (source : String) : List String :=
  ((splitChar '\n' source.data []).map (fun cs => trim (String.mk cs))).filter
    (fun l => l ≠ "" && l.data.headD ' ' != '#')

/-- `parseWait`. -/
def parseWait (line : String) : Option Stmt :=
  let parts := split line ' '
  if parts.length < 2 then none
  else
    match stoi (parts.getD 1 "") with
    | some duration => some (.wait duration)
    | none => none

/-- `parseLED`. -/
def parseLED (line : String) : Option Stmt :=
  let parts := split line ' '
  if parts.length < 2 then none
  else some (.led (parts.getD 1 "") (if 2 < parts.length then parts.getD 2 "" else ""))

/-- The clamping step of `parseMotor`. -/
def clampSpeed (speed : Int) : Int :=
  let speed := if speed < 0 then 0 else speed
  if 100 < speed then 100 else speed

/-- `parseMotor`: the three accepted line formats, with the parsed speed
clamped into `[0,100]`; `nullptr` on malformed input. -/
def parseMotor (line : String) : Option Stmt :=
  let parts := split line ' '
  if parts.length < 3 then none
  else if 3 ≤ parts.length ∧ parts.getD 1 "" = "SPEED" then
    match stoi (parts.getD 2 "") with
    | some speed => some (.motor "default" (clampSpeed speed))
    | none => none
  else if 4 ≤ parts.length ∧ parts.getD 2 "" = "SPEED" then
    match stoi (parts.getD 3 "") with
    | some speed => some (.motor (parts.getD 1 "") (clampSpeed speed))
    | none => none
  else if 2 ≤ parts.length then
    match stoi (parts.getD 1 "") with
    | some speed => some (.motor "default" (clampSpeed speed))
    | none => none
  else none

mutual

/-- `parseStatements`: the line loop, returning the statements plus the
final line index. -/
def parseStatementsF : Nat → List String → Nat → List Stmt × Nat
  | 0, _, index => ([], index)
  | fuel + 1, lines, index =>
    if index < lines.length then
      let line := lines.getD index ""
      if line = "END" then ([], index)
      else if startsWithKw line "REPEAT" then
        match parseRepeatF fuel lines index with
        | (some st, index') =>
          let r := parseStatementsF fuel lines index'
          (st :: r.1, r.2)
        | (none, index') => parseStatementsF fuel lines index'
      else if startsWithKw line "WAIT" then
        match parseWait line with
        | some st =>
          let r := parseStatementsF fuel lines (index + 1)
          (st :: r.1, r.2)
        | none => parseStatementsF fuel lines (index + 1)
      else if startsWithKw line "LED" then
        match parseLED line with
        | some st =>
          let r := parseStatementsF fuel lines (index + 1)
          (st :: r.1, r.2)
        | none => parseStatementsF fuel lines (index + 1)
      else if startsWithKw line "MOTOR" then
        match parseMotor line with
        | some st =>
          let r := parseStatementsF fuel lines (index + 1)
          (st :: r.1, r.2)
        | none => parseStatementsF fuel lines (index + 1)
      else if line = "STOP" then
        let r := parseStatementsF fuel lines (index + 1)
        (Stmt.stop :: r.1, r.2)
      else parseStatementsF fuel lines (index + 1)
    else ([], index)

/-- `parseRepeat`: `REPEAT N TIMES`, a recursive body, then the `END`
line is skipped when present. -/
def parseRepeatF : Nat → List String → Nat → Option Stmt × Nat
  | 0, _, index => (none, index)
  | fuel + 1, lines, index =>
    let line := lines.getD index ""
    let index := index + 1
    let parts := split line ' '
    if parts.length < 3 then (none, index)
    else
      match stoi (parts.getD 1 "") with
      | none => (none, index)
      | some count =>
        let r := parseStatementsF fuel lines index
        let index :=
          if r.2 < lines.length ∧ lines.getD r.2 "" = "END" then r.2 + 1 else r.2
        (some (.repeatStmt count r.1), index)

end

/-- The Peglib parser's `semanticAnalysis` (its accumulator sets are
never populated by this parser). -/
def semanticAnalysisCheck (declared called : List String) : Option PError :=
  match called.find? (fun n => !(declared.contains n)) with
  | some n =>
    some (.semanticError ("Function '" ++ n ++ "' called but not defined")
      ("Available: " ++ (if declared = [] then "none" else String.intercalate ", " declared)))
  | none => none

/-- `PeglibParser::parse`. -/
def parse (source : String) : Except PError Program :=
  let lines := sourceLines source
  let r := parseStatementsF (lines.length + 2) lines 0
  match semanticAnalysisCheck [] [] with
  | some e => .error e
  | none => .ok ⟨r.1⟩

end PeglibParser

/-! ## Concrete inputs used by the claims -/

/-- The source text `REPEAT 0 TIMES STOP END`. -/
def repeatZeroSource : String := "REPEAT 0 TIMES STOP END"

/-- The token sequence the lexer produces for `repeatZeroSource`. -/
def repeatZeroToks : List Tok :=
  [⟨.keyword, "REPEAT", 1, 1⟩, ⟨.number, "0", 1, 8⟩, ⟨.keyword, "TIMES", 1, 10⟩,
   ⟨.keyword, "STOP", 1, 16⟩, ⟨.keyword, "END", 1, 21⟩, ⟨.eof, "EOF", 1, 24⟩]

/-- A `FunctionDef avoidObstacle` holding a single `Stop`, plus a `Call`. -/
def avoidObstacleProgram : Program :=
  ⟨[.functionDef "avoidObstacle" [.stop], .call "avoidObstacle"]⟩

/-- The five-line stop sequence as `generateStop` emits it at
indentation level 1. -/
def stopLines1 : List String :=
  ["  // Stop all motors", "  digitalWrite(5, LOW);", "  digitalWrite(6, LOW);",
   "  digitalWrite(10, LOW);", "  digitalWrite(11, LOW);"]

/-- Tokens of `IF a < b THEN` followed by a body with no `END`: the body
statement `MOVE up 3` itself violates a semantic rule. -/
def unterminatedIfBody : List Tok :=
  [⟨.keyword, "MOVE", 2, 1⟩, ⟨.identifier, "up", 2, 6⟩, ⟨.number, "3", 2, 9⟩,
   ⟨.eof, "EOF", 2, 10⟩]

/-- The full unterminated-`IF` token sequence of the counterexample. -/
def unterminatedIfToks : List Tok :=
  [⟨.keyword, "IF", 1, 1⟩, ⟨.identifier, "a", 1, 4⟩, ⟨.operator, "<", 1, 6⟩,
   ⟨.identifier, "b", 1, 8⟩, ⟨.keyword, "THEN", 1, 10⟩] ++ unterminatedIfBody

/-- `CALL doPing` before `FUNCTION doPing ... END`. -/
def callBeforeDefToks : List Tok :=
  [⟨.keyword, "CALL", 1, 1⟩, ⟨.identifier, "doPing", 1, 6⟩,
   ⟨.keyword, "FUNCTION", 2, 1⟩, ⟨.identifier, "doPing", 2, 10⟩,
   ⟨.keyword, "END", 3, 1⟩, ⟨.eof, "EOF", 3, 4⟩]

/-- `FUNCTION doPing ... END` before `CALL doPing`. -/
def defBeforeCallToks : List Tok :=
  [⟨.keyword, "FUNCTION", 1, 1⟩, ⟨.identifier, "doPing", 1, 10⟩,
   ⟨.keyword, "END", 2, 1⟩, ⟨.keyword, "CALL", 3, 1⟩,
   ⟨.identifier, "doPing", 3, 6⟩, ⟨.eof, "EOF", 3, 12⟩]

/-- `CALL doPing` with no definition anywhere. -/
def undefinedCallToks : List Tok :=
  [⟨.keyword, "CALL", 1, 1⟩, ⟨.identifier, "doPing", 1, 6⟩, ⟨.eof, "EOF", 1, 12⟩]

/-- `MOTOR left SPEED 75`. -/
def motor75Toks : List Tok :=
  [⟨.keyword, "MOTOR", 1, 1⟩, ⟨.keyword, "left", 1, 7⟩, ⟨.keyword, "SPEED", 1, 12⟩,
   ⟨.number, "75", 1, 18⟩, ⟨.eof, "EOF", 1, 20⟩]

/-- `MOTOR left SPEED 150`: out of range for the token parser. -/
def motor150Toks : List Tok :=
  [⟨.keyword, "MOTOR", 1, 1⟩, ⟨.keyword, "left", 1, 7⟩, ⟨.keyword, "SPEED", 1, 12⟩,
   ⟨.number, "150", 1, 18⟩, ⟨.eof, "EOF", 1, 21⟩]

/-! ## Generator frame lemmas -/

namespace ArduinoGenerator

theorem GenFrame.refl (st : GenState) : GenFrame st st :=
  ⟨rfl, rfl, List.prefix_refl _, List.prefix_refl _⟩

theorem GenFrame.addLine {a b : GenState} (h : GenFrame a b) (c : String) :
    GenFrame a (ArduinoGenerator.addLine b c) :=
  ⟨h.1, h.2.1, h.2.2.1.trans (List.prefix_append _ _), h.2.2.2⟩

theorem GenFrame.trans {a b c : GenState} (h1 : GenFrame a b) (h2 : GenFrame b c) :
    GenFrame a c :=
  ⟨h2.1.trans h1.1, h2.2.1.trans h1.2.1, h1.2.2.1.trans h2.2.2.1,
   h1.2.2.2.trans h2.2.2.2⟩

theorem generateRobotDeclaration_frame (st : GenState) (name : String) :
    GenFrame st (generateRobotDeclaration st name) :=
  ((GenFrame.refl st).addLine _).addLine _

theorem generateMove_frame (st : GenState) (d : String) (x : Int) :
    GenFrame st (generateMove st d x) := by
  unfold generateMove
  split
  · exact (((((((GenFrame.refl st).addLine _).addLine _).addLine _).addLine _).addLine _).addLine _)
  split
  · exact (((((((GenFrame.refl st).addLine _).addLine _).addLine _).addLine _).addLine _).addLine _)
  · exact GenFrame.refl st

theorem generateTurn_frame (st : GenState) (d : String) (x : Int) :
    GenFrame st (generateTurn st d x) := by
  unfold generateTurn
  split
  · exact ((((((GenFrame.refl st).addLine _).addLine _).addLine _).addLine _).addLine _).addLine _
  split
  · exact ((((((GenFrame.refl st).addLine _).addLine _).addLine _).addLine _).addLine _).addLine _
  · exact (GenFrame.refl st).addLine _

theorem generateStop_frame (st : GenState) : GenFrame st (generateStop st) :=
  (((((GenFrame.refl st).addLine _).addLine _).addLine _).addLine _).addLine _

theorem generateLED_frame (st : GenState) (state color : String) :
    GenFrame st (generateLED st state color) := by
  unfold generateLED
  split
  · split
    · exact (((GenFrame.refl st).addLine _).addLine _).addLine _
    · exact ((GenFrame.refl st).addLine _).addLine _
  split
  · exact ((GenFrame.refl st).addLine _).addLine _
  · exact GenFrame.refl st

theorem generateServo_frame (st : GenState) (name : String) (angle : Int) :
    GenFrame st (generateServo st name angle) :=
  (((GenFrame.refl st).addLine _).addLine _).addLine _

theorem generateMotor_frame (st : GenState) (name : String) (speed : Int) :
    GenFrame st (generateMotor st name speed) := by
  unfold generateMotor
  split
  · exact ((GenFrame.refl st).addLine _).addLine _
  split
  · exact ((GenFrame.refl st).addLine _).addLine _
  · exact (GenFrame.refl st).addLine _

theorem generateWait_frame (st : GenState) (duration : Int) :
    GenFrame st (generateWait st duration) :=
  (GenFrame.refl st).addLine _

theorem generateCall_frame (st : GenState) (name : String) :
    GenFrame st (generateCall st name) :=
  (GenFrame.refl st).addLine _

theorem generateSend_frame (st : GenState) (message : String) :
    GenFrame st (generateSend st message) :=
  (GenFrame.refl st).addLine _

mutual

theorem generateStatement_frame (st : GenState) (s : Stmt) :
    GenFrame st (generateStatement st s) := by
  cases s with
  | robotDecl name => simp only [generateStatement]; exact generateRobotDeclaration_frame st name
  | move d x => simp only [generateStatement]; exact generateMove_frame st d x
  | turn d x => simp only [generateStatement]; exact generateTurn_frame st d x
  | stop => simp only [generateStatement]; exact generateStop_frame st
  | ifStmt c t e => simp only [generateStatement]; exact generateIf_frame st c t e
  | whileStmt c b => simp only [generateStatement]; exact generateWhile_frame st c b
  | repeatStmt n b => simp only [generateStatement]; exact generateRepeat_frame st n b
  | led a b => simp only [generateStatement]; exact generateLED_frame st a b
  | servo a b => simp only [generateStatement]; exact generateServo_frame st a b
  | motor a b => simp only [generateStatement]; exact generateMotor_frame st a b
  | wait d => simp only [generateStatement]; exact generateWait_frame st d
  | functionDef name body =>
    simp only [generateStatement]
    obtain ⟨h1, h2, h3, h4, _⟩ := generateFunction_frame st name body
    exact ⟨h1, h2, h3.symm ▸ List.prefix_refl _, h4⟩
  | call name => simp only [generateStatement]; exact generateCall_frame st name
  | send message => simp only [generateStatement]; exact generateSend_frame st message
termination_by 2 * sizeOf s

theorem generateIf_frame (st : GenState) (c : Condition) (t e : List Stmt) :
    GenFrame st (generateIf st c t e) := by
  simp only [generateIf]
  split
  · obtain ⟨hbi, hbs, hbg, hbv⟩ :=
      generateBlock_frame (increaseIndent (addLine st ("if " ++ generateCondition c ++ " \x7b"))) t
    refine ⟨?_, ?_, ?_, ?_⟩
    · simp only [addLine, increaseIndent, decreaseIndent] at hbi ⊢
      omega
    · exact hbs
    · exact ((List.prefix_append _ _).trans hbg).trans (List.prefix_append _ _)
    · exact hbv
  · obtain ⟨hbi, hbs, hbg, hbv⟩ :=
      generateBlock_frame (increaseIndent (addLine st ("if " ++ generateCondition c ++ " \x7b"))) t
    obtain ⟨hbi2, hbs2, hbg2, hbv2⟩ :=
      generateBlock_frame (increaseIndent (addLine (decreaseIndent
        (generateBlock (increaseIndent (addLine st ("if " ++ generateCondition c ++ " \x7b"))) t))
        "\x7d else \x7b")) e
    refine ⟨?_, ?_, ?_, ?_⟩
    · simp only [addLine, increaseIndent, decreaseIndent] at hbi hbi2 ⊢
      omega
    · exact hbs2.trans hbs
    · exact ((((List.prefix_append _ _).trans hbg).trans
        (List.prefix_append _ _)).trans hbg2).trans (List.prefix_append _ _)
    · exact hbv.trans hbv2
termination_by 2 * (sizeOf t + sizeOf e) + 1

theorem generateWhile_frame (st : GenState) (c : Condition) (b : List Stmt) :
    GenFrame st (generateWhile st c b) := by
  simp only [generateWhile]
  obtain ⟨hbi, hbs, hbg, hbv⟩ :=
    generateBlock_frame (increaseIndent (addLine st ("while " ++ generateCondition c ++ " \x7b"))) b
  refine ⟨?_, ?_, ?_, ?_⟩
  · simp only [addLine, increaseIndent, decreaseIndent] at hbi ⊢
    omega
  · exact hbs
  · exact ((List.prefix_append _ _).trans hbg).trans (List.prefix_append _ _)
  · exact hbv
termination_by 2 * sizeOf b + 1

theorem generateRepeat_frame (st : GenState) (n : Int) (b : List Stmt) :
    GenFrame st (generateRepeat st n b) := by
  simp only [generateRepeat]
  obtain ⟨hbi, hbs, hbg, hbv⟩ :=
    generateBlock_frame (increaseIndent (addLine st
      ("for (int i = 0; i < " ++ toString n ++ "; i++) \x7b"))) b
  refine ⟨?_, ?_, ?_, ?_⟩
  · simp only [addLine, increaseIndent, decreaseIndent] at hbi ⊢
    omega
  · exact hbs
  · exact ((List.prefix_append _ _).trans hbg).trans (List.prefix_append _ _)
  · exact hbv
termination_by 2 * sizeOf b + 1

theorem generateFunctionLoop_frame (st : GenState) (fc : String) (body : List Stmt) :
    (generateFunctionLoop st fc body).1.indentLevel = st.indentLevel ∧
    (generateFunctionLoop st fc body).1.setupCode = st.setupCode ∧
    (generateFunctionLoop st fc body).1.generatedCode = st.generatedCode ∧
    st.variableDeclarations <+: (generateFunctionLoop st fc body).1.variableDeclarations := by
  match body with
  | [] => simp [generateFunctionLoop]
  | s :: rest =>
    obtain ⟨h1, h2, hpre, hv⟩ := generateStatement_frame st s
    obtain ⟨g, hg⟩ := hpre
    have htake : (generateStatement st s).generatedCode.take st.generatedCode.length =
        st.generatedCode := by
      rw [← hg, List.take_left]
    obtain ⟨r1, r2, r3, r4⟩ := generateFunctionLoop_frame
      { generateStatement st s with generatedCode :=
          (generateStatement st s).generatedCode.take st.generatedCode.length }
      (fc ++ String.join ((((generateStatement st s).generatedCode.drop
        st.generatedCode.length).reverse).map (fun l => l ++ "\n"))) rest
    simp only [generateFunctionLoop]
    refine ⟨?_, ?_, ?_, ?_⟩
    · rw [r1]; exact h1
    · rw [r2]; exact h2
    · rw [r3]; exact htake
    · exact hv.trans r4
termination_by 2 * sizeOf body

theorem generateFunction_frame (st : GenState) (name : String) (body : List Stmt) :
    (generateFunction st name body).indentLevel = st.indentLevel ∧
    (generateFunction st name body).setupCode = st.setupCode ∧
    (generateFunction st name body).generatedCode = st.generatedCode ∧
    st.variableDeclarations <+: (generateFunction st name body).variableDeclarations ∧
    st.variableDeclarations.length < (generateFunction st name body).variableDeclarations.length := by
  obtain ⟨h1, h2, h3, h4⟩ := generateFunctionLoop_frame
    { st with
        variableDeclarations := st.variableDeclarations ++ ["void " ++ name ++ "() \x7b"],
        indentLevel := 1 }
    "" body
  simp only [generateFunction]
  refine ⟨by simp, ?_, ?_, ?_, ?_⟩
  · simpa using h2
  · simpa using h3
  · exact ((List.prefix_append _ _).trans (by simpa using h4)).trans (List.prefix_append _ _)
  · have hl := h4.length_le
    simp only [List.length_append, List.length_cons, List.length_nil] at hl
    simp only [List.length_append, List.length_cons, List.length_nil]
    simp
    omega
termination_by 2 * sizeOf body + 1

theorem generateBlock_frame (st : GenState) (l : List Stmt) :
    GenFrame st (generateBlock st l) := by
  match l with
  | [] => simp only [generateBlock]; exact GenFrame.refl st
  | s :: rest =>
    simp only [generateBlock]
    exact (generateStatement_frame st s).trans
      (generateBlock_frame (generateStatement st s) rest)
termination_by 2 * sizeOf l

end

end ArduinoGenerator

/-! ## Claim theorems: code generator -/

/-- C1: at the failing input — a `FunctionDef avoidObstacle` whose body is one
`Stop`, plus a `Call avoidObstacle` — the generator hoists exactly one
`void avoidObstacle()` block and leaves exactly one invocation line in the
loop-body buffer, but the hoisted body is the five-line stop sequence in
REVERSE of the order `generateStop` emits it: `generateFunction` pops the
shared buffer from the back while extracting, so each statement's lines are
reversed (the committed artifact `robot_code.cpp` shows the same scrambled
output). -/
theorem C1_hoisted_body_is_reversed_stop_sequence :
    (ArduinoGenerator.generateState avoidObstacleProgram).variableDeclarations =
      ["void avoidObstacle() \x7b",
        String.join ((stopLines1.reverse).map (fun l => l ++ "\n")), "\x7d", ""] ∧
    (ArduinoGenerator.generateState avoidObstacleProgram).generatedCode =
      ["avoidObstacle();  // Call function"] ∧
    (ArduinoGenerator.generateStop ⟨1, [], [], []⟩).generatedCode = stopLines1 ∧
    String.join ((stopLines1.reverse).map (fun l => l ++ "\n")) ≠
      String.join (stopLines1.map (fun l => l ++ "\n")) := by
  refine ⟨?_, ?_, by rfl, by decide⟩
  · simp only [avoidObstacleProgram, ArduinoGenerator.generateState,
      ArduinoGenerator.generateBlock, ArduinoGenerator.generateStatement,
      ArduinoGenerator.generateFunction, ArduinoGenerator.generateFunctionLoop]
    rfl
  · simp only [avoidObstacleProgram, ArduinoGenerator.generateState,
      ArduinoGenerator.generateBlock, ArduinoGenerator.generateStatement,
      ArduinoGenerator.generateFunction, ArduinoGenerator.generateFunctionLoop]
    rfl

/-- C5: the token sequence of `REPEAT 0 TIMES STOP END` parses into a
`Repeat` with `times = 0` and body `[Stop]`, and `generateRepeat` emits the
bound-0 `for` header enclosing the stop sequence. -/
theorem C5_repeat_zero_parses_and_generates_bound_zero_loop :
    Lexer.tokenize repeatZeroSource = .ok repeatZeroToks ∧
    Parser.parse repeatZeroToks = .ok ⟨[.repeatStmt 0 [.stop]]⟩ ∧
    (ArduinoGenerator.generateRepeat ⟨0, [], [], []⟩ 0 [.stop]).generatedCode =
      ["for (int i = 0; i < 0; i++) \x7b"] ++ stopLines1 ++ ["\x7d"] := by
  refine ⟨by rfl, by rfl, ?_⟩
  simp only [ArduinoGenerator.generateRepeat, ArduinoGenerator.generateBlock,
    ArduinoGenerator.generateStatement]
  rfl

/-- C6: `generateCondition` replaces a left operand containing
`sensor.distance` by `analogRead(14)` and passes the operator and a
non-sensor right operand through unchanged; operands matching neither
sensor pattern pass through entirely as-is. -/
theorem C6_condition_sensor_substitution :
    (∀ condition : Condition,
        strContains condition.left "sensor.distance" = true →
        condition.op = "<" →
        condition.right = "30" →
        ArduinoGenerator.generateCondition condition = "(analogRead(14) < 30)") ∧
    (∀ condition : Condition,
        strContains condition.left "sensor.distance" = false →
        strContains condition.left "sensor.light" = false →
        strContains condition.right "sensor.distance" = false →
        strContains condition.right "sensor.light" = false →
        ArduinoGenerator.generateCondition condition =
          "(" ++ condition.left ++ " " ++ condition.op ++ " " ++ condition.right ++ ")") := by
  constructor
  · intro condition h1 h2 h3
    simp only [ArduinoGenerator.generateCondition, h1, h2, h3]
    rfl
  · intro condition h1 h2 h3 h4
    simp only [ArduinoGenerator.generateCondition, h1, h2, h3, h4]
    rfl

/-- C6 witness: the substitution at `sensor.distance < 30` and the
pass-through at `x < 5`. -/
theorem C6_condition_sensor_substitution_witness :
    ArduinoGenerator.generateCondition ⟨"sensor.distance", "<", "30"⟩ =
      "(analogRead(14) < 30)" ∧
    ArduinoGenerator.generateCondition ⟨"x", "<", "5"⟩ = "(x < 5)" :=
  ⟨C6_condition_sensor_substitution.1 ⟨"sensor.distance", "<", "30"⟩ (by decide) rfl rfl,
   C6_condition_sensor_substitution.2 ⟨"x", "<", "5"⟩ (by decide) (by decide)
     (by decide) (by decide)⟩

/-- C7: for every `FunctionDef` and every prior generator state,
`generateFunction` restores the loop-body buffer and the indentation level
exactly, leaves the setup buffer untouched, and only grows the hoisted
declarations buffer. -/
theorem C7_generateFunction_leaves_no_trace :
    ∀ (st : ArduinoGenerator.GenState) (name : String) (body : List Stmt),
      (ArduinoGenerator.generateFunction st name body).generatedCode = st.generatedCode ∧
      (ArduinoGenerator.generateFunction st name body).indentLevel = st.indentLevel ∧
      (ArduinoGenerator.generateFunction st name body).setupCode = st.setupCode ∧
      ∃ extra, extra ≠ [] ∧
        (ArduinoGenerator.generateFunction st name body).variableDeclarations =
          st.variableDeclarations ++ extra := by
  intro st name body
  obtain ⟨h1, h2, h3, h4, h5⟩ := ArduinoGenerator.generateFunction_frame st name body
  obtain ⟨v, hv⟩ := h4
  refine ⟨h3, h1, h2, v, ?_, hv.symm⟩
  rintro rfl
  rw [List.append_nil] at hv
  rw [hv] at h5
  exact lt_irrefl _ h5

/-- C7 witness: the frame effect at a concrete state and function. -/
theorem C7_generateFunction_leaves_no_trace_witness :
    (ArduinoGenerator.generateFunction ⟨0, ["x"], ["y"], ["z"]⟩ "f" [.stop]).generatedCode =
        ["x"] ∧
    (ArduinoGenerator.generateFunction ⟨0, ["x"], ["y"], ["z"]⟩ "f" [.stop]).indentLevel = 0 ∧
    (ArduinoGenerator.generateFunction ⟨0, ["x"], ["y"], ["z"]⟩ "f" [.stop]).setupCode = ["y"] :=
  ⟨(C7_generateFunction_leaves_no_trace ⟨0, ["x"], ["y"], ["z"]⟩ "f" [.stop]).1,
   (C7_generateFunction_leaves_no_trace ⟨0, ["x"], ["y"], ["z"]⟩ "f" [.stop]).2.1,
   (C7_generateFunction_leaves_no_trace ⟨0, ["x"], ["y"], ["z"]⟩ "f" [.stop]).2.2.1⟩

/-- C8: every statement emission returns with the indentation counter
exactly as on entry, and after `generate` walks any program the counter
is 0. -/
theorem C8_indentation_balanced :
    (∀ (st : ArduinoGenerator.GenState) (s : Stmt),
        (ArduinoGenerator.generateStatement st s).indentLevel = st.indentLevel) ∧
    (∀ program : Program,
        (ArduinoGenerator.generateState program).indentLevel = 0) := by
  constructor
  · intro st s
    exact (ArduinoGenerator.generateStatement_frame st s).1
  · intro program
    simp only [ArduinoGenerator.generateState]
    rw [(ArduinoGenerator.generateBlock_frame _ _).1]
    rfl

/-- C9: the LED serialization has the `color` key exactly when the color
is non-empty; when present it is the color string itself (never null, never
empty), and `type`/`state` are always present. -/
theorem C9_led_color_key_iff_nonempty :
    ∀ state color : String,
      (("color" ∈ (LEDStatement.toJson state color).keys) ↔ color ≠ "") ∧
      "type" ∈ (LEDStatement.toJson state color).keys ∧
      "state" ∈ (LEDStatement.toJson state color).keys ∧
      (∀ v : Json,
        ("color", v) ∈ (match LEDStatement.toJson state color with
            | .obj fields => fields
            | _ => []) →
          v = Json.str color ∧ v ≠ Json.null ∧ v ≠ Json.str "") := by
  intro state color
  by_cases hc : color = ""
  · subst hc
    refine ⟨by simp [LEDStatement.toJson, Json.keys], by simp [LEDStatement.toJson, Json.keys],
      by simp [LEDStatement.toJson, Json.keys], ?_⟩
    intro v hv
    simp [LEDStatement.toJson] at hv
  · refine ⟨by simp [LEDStatement.toJson, Json.keys, hc],
      by simp [LEDStatement.toJson, Json.keys, hc],
      by simp [LEDStatement.toJson, Json.keys, hc], ?_⟩
    intro v hv
    simp [LEDStatement.toJson, hc] at hv
    refine ⟨hv, ?_, ?_⟩ <;> subst hv <;> simp [hc]

/-- C9 witness: `LED on RED` has the key with the color value, `LED off`
(empty color) omits it; `type` and `state` are present. -/
theorem C9_led_color_key_iff_nonempty_witness :
    "color" ∈ (LEDStatement.toJson "on" "RED").keys ∧
    "color" ∉ (LEDStatement.toJson "off" "").keys ∧
    "type" ∈ (LEDStatement.toJson "off" "").keys ∧
    "state" ∈ (LEDStatement.toJson "off" "").keys :=
  ⟨(C9_led_color_key_iff_nonempty "on" "RED").1.mpr (by decide),
   fun h => ((C9_led_color_key_iff_nonempty "off" "").1.mp h) rfl,
   (C9_led_color_key_iff_nonempty "off" "").2.1,
   (C9_led_color_key_iff_nonempty "off" "").2.2.1⟩

/-- C10: `generateMotor` emits the descriptive comment always, and an
`analogWrite` with PWM value `(speed * 255) / 100` (truncating division)
only for the names `left` (pin 5) and `right` (pin 10) — any other name,
including the `default` the line parser assigns to `MOTOR SPEED n`, gets
no actuation instruction; for speed in `[0,100]` the PWM value is in
`[0,255]`. -/
theorem C10_generateMotor_pwm_and_name_gating :
    (∀ (st : ArduinoGenerator.GenState) (name : String) (speed : Int),
      (ArduinoGenerator.generateMotor st name speed).generatedCode =
        st.generatedCode ++
          [ArduinoGenerator.indentStr st ++
            ("// Motor " ++ name ++ " speed: " ++ toString speed ++ "%")] ++
          (if name = "left" then
            [ArduinoGenerator.indentStr st ++
              ("analogWrite(" ++ toString ArduinoGenerator.MOTOR_LEFT_FORWARD ++ ", " ++
                toString (cppDiv (speed * 255) 100) ++ ");")]
          else if name = "right" then
            [ArduinoGenerator.indentStr st ++
              ("analogWrite(" ++ toString ArduinoGenerator.MOTOR_RIGHT_FORWARD ++ ", " ++
                toString (cppDiv (speed * 255) 100) ++ ");")]
          else [])) ∧
    (∀ speed : Int, 0 ≤ speed → speed ≤ 100 →
      0 ≤ cppDiv (speed * 255) 100 ∧ cppDiv (speed * 255) 100 ≤ 255) ∧
    PeglibParser.parseMotor "MOTOR SPEED 50" = some (.motor "default" 50) := by
  refine ⟨?_, ?_, by rfl⟩
  · intro st name speed
    simp only [ArduinoGenerator.generateMotor, ArduinoGenerator.addLine]
    by_cases h1 : name = "left"
    · simp [h1, ArduinoGenerator.indentStr]
    · by_cases h2 : name = "right" <;> simp [h1, h2, ArduinoGenerator.indentStr]
  · intro speed h0 h100
    unfold cppDiv
    rw [Int.tdiv_eq_ediv (by omega) (by omega)]
    omega

/-- C10 witness: speed 75 gives PWM 191 within `[0,255]`, and a motor
named `default` gets only the comment line. -/
theorem C10_generateMotor_pwm_and_name_gating_witness :
    (0 ≤ cppDiv (75 * 255) 100 ∧ cppDiv (75 * 255) 100 ≤ 255) ∧
    (ArduinoGenerator.generateMotor ⟨0, [], [], []⟩ "default" 75).generatedCode =
      ["// Motor default speed: 75%"] :=
  ⟨C10_generateMotor_pwm_and_name_gating.2.1 75 (by decide) (by decide),
   by rw [C10_generateMotor_pwm_and_name_gating.1 ⟨0, [], [], []⟩ "default" 75]; rfl⟩

/-! ## Token-parser lemmas -/

namespace Parser

@[simp] theorem consume_ok_iff {tokens : List Tok} {s : PState} {t : Tok} {s' : PState} :
    consume tokens s = .ok (t, s') ↔
      s.pos < tokens.length ∧ t = tokens.getD s.pos eofTok ∧
        s' = { s with pos := s.pos + 1 } := by
  unfold consume
  split
  · constructor
    · intro h; simp at h
    · intro ⟨h, _⟩; omega
  · constructor
    · intro h
      simp only [Except.ok.injEq, Prod.mk.injEq] at h
      exact ⟨by omega, h.1.symm, h.2.symm⟩
    · intro ⟨_, h2, h3⟩
      rw [h2, h3]

@[simp] theorem consume_error_iff {tokens : List Tok} {s : PState} {e : PError} :
    consume tokens s = .error e ↔
      tokens.length ≤ s.pos ∧
        e = .parserError "Unexpected end of input" 0 0 "token" "EOF" := by
  unfold consume
  split
  · constructor
    · intro h
      simp only [Except.error.injEq] at h
      exact ⟨by omega, h.symm⟩
    · intro ⟨_, h⟩; rw [h]
  · constructor
    · intro h; simp at h
    · intro ⟨h, _⟩; omega

@[simp] theorem consumeExpected_ok_iff {tokens : List Tok} {exp : String} {s : PState}
    {t : Tok} {s' : PState} :
    consumeExpected tokens exp s = .ok (t, s') ↔
      (peek tokens s).value = exp ∧ t = peek tokens s ∧
        s' = { s with pos := s.pos + 1 } := by
  simp only [consumeExpected]
  split
  · constructor
    · intro h; simp at h
    · intro ⟨h, _⟩; simp_all
  · constructor
    · intro h
      simp only [Except.ok.injEq, Prod.mk.injEq] at h
      refine ⟨by simp_all, h.1.symm, h.2.symm⟩
    · intro ⟨_, h2, h3⟩
      rw [h2, h3]

@[simp] theorem consumeExpected_error_iff {tokens : List Tok} {exp : String} {s : PState}
    {e : PError} :
    consumeExpected tokens exp s = .error e ↔
      (peek tokens s).value ≠ exp ∧
        e = .parserError "Unexpected token" (peek tokens s).line (peek tokens s).column
          exp (peek tokens s).value := by
  simp only [consumeExpected]
  split
  · constructor
    · intro h
      simp only [Except.error.injEq] at h
      exact ⟨by assumption, h.symm⟩
    · intro ⟨_, h⟩; rw [h]
  · constructor
    · intro h; simp at h
    · intro ⟨h, _⟩; simp_all

theorem parseCondition_spec (tokens : List Tok) (s : PState) :
    (∃ c s', parseCondition tokens s = .ok (c, s') ∧ s' = { s with pos := s.pos + 3 }) ∨
    (∃ e, parseCondition tokens s = .error e ∧ e ≠ .outOfFuel) := by
  unfold parseCondition
  iterate 6 (all_goals try split)
  all_goals simp_all

theorem parseRobotDeclaration_spec (tokens : List Tok) (s : PState) :
    (∃ st s', parseRobotDeclaration tokens s = .ok (st, s') ∧
      s.pos + 1 ≤ s'.pos ∧ motorOkS st = true) ∨
    (∃ e, parseRobotDeclaration tokens s = .error e ∧ e ≠ .outOfFuel) := by
  unfold parseRobotDeclaration
  iterate 6 (all_goals try split)
  all_goals simp_all [motorOkS]
  all_goals exact ⟨_, _, ⟨rfl, rfl⟩, by simp_arith,
    by simp only [motorOkS, decide_eq_true_eq] <;> omega⟩

theorem parseMoveStatement_spec (tokens : List Tok) (s : PState) :
    (∃ st s', parseMoveStatement tokens s = .ok (st, s') ∧
      s.pos + 1 ≤ s'.pos ∧ motorOkS st = true) ∨
    (∃ e, parseMoveStatement tokens s = .error e ∧ e ≠ .outOfFuel) := by
  unfold parseMoveStatement
  iterate 14 (all_goals try split)
  all_goals simp_all [motorOkS]
  all_goals exact ⟨_, _, ⟨rfl, rfl⟩, by simp_arith,
    by simp only [motorOkS, decide_eq_true_eq] <;> omega⟩

theorem parseTurnStatement_spec (tokens : List Tok) (s : PState) :
    (∃ st s', parseTurnStatement tokens s = .ok (st, s') ∧
      s.pos + 1 ≤ s'.pos ∧ motorOkS st = true) ∨
    (∃ e, parseTurnStatement tokens s = .error e ∧ e ≠ .outOfFuel) := by
  unfold parseTurnStatement
  iterate 14 (all_goals try split)
  all_goals simp_all [motorOkS]
  all_goals exact ⟨_, _, ⟨rfl, rfl⟩, by simp_arith,
    by simp only [motorOkS, decide_eq_true_eq] <;> omega⟩

theorem parseStopStatement_spec (tokens : List Tok) (s : PState) :
    (∃ st s', parseStopStatement tokens s = .ok (st, s') ∧
      s.pos + 1 ≤ s'.pos ∧ motorOkS st = true) ∨
    (∃ e, parseStopStatement tokens s = .error e ∧ e ≠ .outOfFuel) := by
  unfold parseStopStatement
  iterate 4 (all_goals try split)
  all_goals simp_all [motorOkS]
  all_goals exact ⟨_, _, ⟨rfl, rfl⟩, by simp_arith,
    by simp only [motorOkS, decide_eq_true_eq] <;> omega⟩

theorem parseLEDStatement_spec (tokens : List Tok) (s : PState) :
    (∃ st s', parseLEDStatement tokens s = .ok (st, s') ∧
      s.pos + 1 ≤ s'.pos ∧ motorOkS st = true) ∨
    (∃ e, parseLEDStatement tokens s = .error e ∧ e ≠ .outOfFuel) := by
  unfold parseLEDStatement
  iterate 14 (all_goals try split)
  all_goals simp_all [motorOkS]
  all_goals exact ⟨_, _, ⟨rfl, rfl⟩, by simp_arith,
    by simp only [motorOkS, decide_eq_true_eq] <;> omega⟩

theorem parseServoStatement_spec (tokens : List Tok) (s : PState) :
    (∃ st s', parseServoStatement tokens s = .ok (st, s') ∧
      s.pos + 1 ≤ s'.pos ∧ motorOkS st = true) ∨
    (∃ e, parseServoStatement tokens s = .error e ∧ e ≠ .outOfFuel) := by
  unfold parseServoStatement
  iterate 14 (all_goals try split)
  all_goals simp_all [motorOkS]
  all_goals exact ⟨_, _, ⟨rfl, rfl⟩, by simp_arith,
    by simp only [motorOkS, decide_eq_true_eq] <;> omega⟩

theorem parseMotorStatement_spec (tokens : List Tok) (s : PState) :
    (∃ st s', parseMotorStatement tokens s = .ok (st, s') ∧
      s.pos + 1 ≤ s'.pos ∧ motorOkS st = true) ∨
    (∃ e, parseMotorStatement tokens s = .error e ∧ e ≠ .outOfFuel) := by
  unfold parseMotorStatement
  iterate 14 (all_goals try split)
  all_goals simp_all [motorOkS]
  all_goals exact ⟨_, _, ⟨rfl, rfl⟩, by simp_arith,
    by simp only [motorOkS, decide_eq_true_eq] <;> omega⟩

theorem parseWaitStatement_spec (tokens : List Tok) (s : PState) :
    (∃ st s', parseWaitStatement tokens s = .ok (st, s') ∧
      s.pos + 1 ≤ s'.pos ∧ motorOkS st = true) ∨
    (∃ e, parseWaitStatement tokens s = .error e ∧ e ≠ .outOfFuel) := by
  unfold parseWaitStatement
  iterate 10 (all_goals try split)
  all_goals simp_all [motorOkS]
  all_goals exact ⟨_, _, ⟨rfl, rfl⟩, by simp_arith,
    by simp only [motorOkS, decide_eq_true_eq] <;> omega⟩

theorem parseCallStatement_spec (tokens : List Tok) (s : PState) :
    (∃ st s', parseCallStatement tokens s = .ok (st, s') ∧
      s.pos + 1 ≤ s'.pos ∧ motorOkS st = true) ∨
    (∃ e, parseCallStatement tokens s = .error e ∧ e ≠ .outOfFuel) := by
  unfold parseCallStatement
  iterate 6 (all_goals try split)
  all_goals simp_all [motorOkS]
  all_goals exact ⟨_, _, ⟨rfl, rfl⟩, by simp_arith,
    by simp only [motorOkS, decide_eq_true_eq] <;> omega⟩

theorem parseSendStatement_spec (tokens : List Tok) (s : PState) :
    (∃ st s', parseSendStatement tokens s = .ok (st, s') ∧
      s.pos + 1 ≤ s'.pos ∧ motorOkS st = true) ∨
    (∃ e, parseSendStatement tokens s = .error e ∧ e ≠ .outOfFuel) := by
  unfold parseSendStatement
  iterate 10 (all_goals try split)
  all_goals simp_all [motorOkS]
  all_goals exact ⟨_, _, ⟨rfl, rfl⟩, by simp_arith,
    by simp only [motorOkS, decide_eq_true_eq] <;> omega⟩

@[simp] theorem wrapStmt_ne_ok_none {token : Tok} {r : Except PError (Stmt × PState)}
    {s' : PState} : wrapStmt token r ≠ .ok (none, s') := by
  unfold wrapStmt; split <;> simp_all

@[simp] theorem wrapStmt_ok_some_iff {token : Tok} {r : Except PError (Stmt × PState)}
    {st : Stmt} {s' : PState} :
    wrapStmt token r = .ok (some st, s') ↔ r = .ok (st, s') := by
  unfold wrapStmt; split <;> simp_all

theorem wrapStmt_error_fuel {token : Tok} {r : Except PError (Stmt × PState)}
    (h : wrapStmt token r = .error .outOfFuel) : r = .error .outOfFuel := by
  unfold wrapStmt at h; split at h <;> simp_all

theorem wrapStmt_error_ex {token : Tok} {r : Except PError (Stmt × PState)} {e : PError}
    (h : wrapStmt token r = .error e) : ∃ e0, r = .error e0 := by
  unfold wrapStmt at h; split at h <;> simp_all

/-- A `none` statement result leaves the state unchanged and can only
happen at an EOF-typed token or a bare `END`. -/
theorem parseStatementF_none {fuel : Nat} {tokens : List Tok} {s s' : PState}
    (h : parseStatementF fuel tokens s = .ok (none, s')) :
    s' = s ∧ ((peek tokens s).type = .eof ∨ (peek tokens s).value = "END") := by
  match fuel with
  | 0 => simp [parseStatementF] at h
  | fuel + 1 =>
    unfold parseStatementF at h
    by_cases h1 : (peek tokens s).type = TokType.eof
    · simp only [h1, if_true] at h
      injection h with h
      injection h with h3 h4
      exact ⟨h4.symm, .inl h1⟩
    · by_cases h2 : (peek tokens s).value = "END"
      · simp only [h1, if_false, h2, if_true] at h
        injection h with h
        injection h with h3 h4
        exact ⟨h4.symm, .inr h2⟩
      · simp only [h1, h2, if_false] at h
        exact absurd h wrapStmt_ne_ok_none

theorem parseCondition_ok {tokens : List Tok} {s : PState} {c : Condition} {s' : PState}
    (h : parseCondition tokens s = .ok (c, s')) : s' = { s with pos := s.pos + 3 } := by
  rcases parseCondition_spec tokens s with ⟨a, b, heq, hb⟩ | ⟨e, heq, hne⟩
  · rw [heq] at h
    injection h with h
    injection h with h1 h2
    subst h2; exact hb
  · rw [heq] at h; cases h

theorem parseRobotDeclaration_ok {tokens : List Tok} {s : PState} {st : Stmt} {s' : PState}
    (h : parseRobotDeclaration tokens s = .ok (st, s')) :
    s.pos + 1 ≤ s'.pos ∧ motorOkS st = true := by
  rcases parseRobotDeclaration_spec tokens s with ⟨a, b, heq, hb, hm⟩ | ⟨e, heq, hne⟩
  · rw [heq] at h
    injection h with h
    injection h with h1 h2
    subst h1; subst h2; exact ⟨hb, hm⟩
  · rw [heq] at h; cases h

theorem parseMoveStatement_ok {tokens : List Tok} {s : PState} {st : Stmt} {s' : PState}
    (h : parseMoveStatement tokens s = .ok (st, s')) :
    s.pos + 1 ≤ s'.pos ∧ motorOkS st = true := by
  rcases parseMoveStatement_spec tokens s with ⟨a, b, heq, hb, hm⟩ | ⟨e, heq, hne⟩
  · rw [heq] at h
    injection h with h
    injection h with h1 h2
    subst h1; subst h2; exact ⟨hb, hm⟩
  · rw [heq] at h; cases h

theorem parseTurnStatement_ok {tokens : List Tok} {s : PState} {st : Stmt} {s' : PState}
    (h : parseTurnStatement tokens s = .ok (st, s')) :
    s.pos + 1 ≤ s'.pos ∧ motorOkS st = true := by
  rcases parseTurnStatement_spec tokens s with ⟨a, b, heq, hb, hm⟩ | ⟨e, heq, hne⟩
  · rw [heq] at h
    injection h with h
    injection h with h1 h2
    subst h1; subst h2; exact ⟨hb, hm⟩
  · rw [heq] at h; cases h

theorem parseStopStatement_ok {tokens : List Tok} {s : PState} {st : Stmt} {s' : PState}
    (h : parseStopStatement tokens s = .ok (st, s')) :
    s.pos + 1 ≤ s'.pos ∧ motorOkS st = true := by
  rcases parseStopStatement_spec tokens s with ⟨a, b, heq, hb, hm⟩ | ⟨e, heq, hne⟩
  · rw [heq] at h
    injection h with h
    injection h with h1 h2
    subst h1; subst h2; exact ⟨hb, hm⟩
  · rw [heq] at h; cases h

theorem parseLEDStatement_ok {tokens : List Tok} {s : PState} {st : Stmt} {s' : PState}
    (h : parseLEDStatement tokens s = .ok (st, s')) :
    s.pos + 1 ≤ s'.pos ∧ motorOkS st = true := by
  rcases parseLEDStatement_spec tokens s with ⟨a, b, heq, hb, hm⟩ | ⟨e, heq, hne⟩
  · rw [heq] at h
    injection h with h
    injection h with h1 h2
    subst h1; subst h2; exact ⟨hb, hm⟩
  · rw [heq] at h; cases h

theorem parseServoStatement_ok {tokens : List Tok} {s : PState} {st : Stmt} {s' : PState}
    (h : parseServoStatement tokens s = .ok (st, s')) :
    s.pos + 1 ≤ s'.pos ∧ motorOkS st = true := by
  rcases parseServoStatement_spec tokens s with ⟨a, b, heq, hb, hm⟩ | ⟨e, heq, hne⟩
  · rw [heq] at h
    injection h with h
    injection h with h1 h2
    subst h1; subst h2; exact ⟨hb, hm⟩
  · rw [heq] at h; cases h

theorem parseMotorStatement_ok {tokens : List Tok} {s : PState} {st : Stmt} {s' : PState}
    (h : parseMotorStatement tokens s = .ok (st, s')) :
    s.pos + 1 ≤ s'.pos ∧ motorOkS st = true := by
  rcases parseMotorStatement_spec tokens s with ⟨a, b, heq, hb, hm⟩ | ⟨e, heq, hne⟩
  · rw [heq] at h
    injection h with h
    injection h with h1 h2
    subst h1; subst h2; exact ⟨hb, hm⟩
  · rw [heq] at h; cases h

theorem parseWaitStatement_ok {tokens : List Tok} {s : PState} {st : Stmt} {s' : PState}
    (h : parseWaitStatement tokens s = .ok (st, s')) :
    s.pos + 1 ≤ s'.pos ∧ motorOkS st = true := by
  rcases parseWaitStatement_spec tokens s with ⟨a, b, heq, hb, hm⟩ | ⟨e, heq, hne⟩
  · rw [heq] at h
    injection h with h
    injection h with h1 h2
    subst h1; subst h2; exact ⟨hb, hm⟩
  · rw [heq] at h; cases h

theorem parseCallStatement_ok {tokens : List Tok} {s : PState} {st : Stmt} {s' : PState}
    (h : parseCallStatement tokens s = .ok (st, s')) :
    s.pos + 1 ≤ s'.pos ∧ motorOkS st = true := by
  rcases parseCallStatement_spec tokens s with ⟨a, b, heq, hb, hm⟩ | ⟨e, heq, hne⟩
  · rw [heq] at h
    injection h with h
    injection h with h1 h2
    subst h1; subst h2; exact ⟨hb, hm⟩
  · rw [heq] at h; cases h

theorem parseSendStatement_ok {tokens : List Tok} {s : PState} {st : Stmt} {s' : PState}
    (h : parseSendStatement tokens s = .ok (st, s')) :
    s.pos + 1 ≤ s'.pos ∧ motorOkS st = true := by
  rcases parseSendStatement_spec tokens s with ⟨a, b, heq, hb, hm⟩ | ⟨e, heq, hne⟩
  · rw [heq] at h
    injection h with h
    injection h with h1 h2
    subst h1; subst h2; exact ⟨hb, hm⟩
  · rw [heq] at h; cases h

set_option maxHeartbeats 1600000 in
/-- Fuel induction: a successfully parsed statement advances the position
and satisfies the motor-speed invariant; a parsed block never moves the
position backwards and satisfies the invariant statement-wise. -/
theorem parser_advance : ∀ fuel : Nat,
    (∀ tokens s st s', parseStatementF fuel tokens s = .ok (some st, s') →
      s.pos + 1 ≤ s'.pos ∧ motorOkS st = true) ∧
    (∀ tokens term s l s', parseBlockF fuel tokens term s = .ok (l, s') →
      s.pos ≤ s'.pos ∧ motorOkL l = true) ∧
    (∀ tokens s st s', parseIfStatementF fuel tokens s = .ok (st, s') →
      s.pos + 1 ≤ s'.pos ∧ motorOkS st = true) ∧
    (∀ tokens s st s', parseWhileStatementF fuel tokens s = .ok (st, s') →
      s.pos + 1 ≤ s'.pos ∧ motorOkS st = true) ∧
    (∀ tokens s st s', parseRepeatStatementF fuel tokens s = .ok (st, s') →
      s.pos + 1 ≤ s'.pos ∧ motorOkS st = true) ∧
    (∀ tokens s st s', parseFunctionDefF fuel tokens s = .ok (st, s') →
      s.pos + 1 ≤ s'.pos ∧ motorOkS st = true) := by
  intro fuel
  induction fuel with
  | zero =>
    refine ⟨fun tokens s st s' h => ?_, fun tokens term s l s' h => ?_,
      fun tokens s st s' h => ?_, fun tokens s st s' h => ?_,
      fun tokens s st s' h => ?_, fun tokens s st s' h => ?_⟩ <;>
      simp [parseStatementF, parseBlockF, parseIfStatementF, parseWhileStatementF,
        parseRepeatStatementF, parseFunctionDefF] at h
  | succ fuel IH =>
    obtain ⟨IHS, IHB, IHIf, IHW, IHR, IHF⟩ := IH
    refine ⟨?_, ?_, ?_, ?_, ?_, ?_⟩
    · -- parseStatement
      intro tokens s st s' h
      unfold parseStatementF at h
      by_cases h1 : (peek tokens s).type = TokType.eof
      · simp [h1] at h
      · by_cases h2 : (peek tokens s).value = "END"
        · simp [h1, h2] at h
        · simp only [h1, h2, if_false] at h
          by_cases k1 : (peek tokens s).value = "ROBOT"
          · simp only [k1, if_true] at h
            rw [wrapStmt_ok_some_iff] at h
            exact parseRobotDeclaration_ok h
          · simp only [k1, if_false] at h
            by_cases k2 : (peek tokens s).value = "MOVE"
            · simp only [k2, if_true] at h
              rw [wrapStmt_ok_some_iff] at h
              exact parseMoveStatement_ok h
            · simp only [k2, if_false] at h
              by_cases k3 : (peek tokens s).value = "TURN"
              · simp only [k3, if_true] at h
                rw [wrapStmt_ok_some_iff] at h
                exact parseTurnStatement_ok h
              · simp only [k3, if_false] at h
                by_cases k4 : (peek tokens s).value = "STOP"
                · simp only [k4, if_true] at h
                  rw [wrapStmt_ok_some_iff] at h
                  exact parseStopStatement_ok h
                · simp only [k4, if_false] at h
                  by_cases k5 : (peek tokens s).value = "IF"
                  · simp only [k5, if_true] at h
                    rw [wrapStmt_ok_some_iff] at h
                    exact IHIf tokens s st s' h
                  · simp only [k5, if_false] at h
                    by_cases k6 : (peek tokens s).value = "WHILE"
                    · simp only [k6, if_true] at h
                      rw [wrapStmt_ok_some_iff] at h
                      exact IHW tokens s st s' h
                    · simp only [k6, if_false] at h
                      by_cases k7 : (peek tokens s).value = "REPEAT"
                      · simp only [k7, if_true] at h
                        rw [wrapStmt_ok_some_iff] at h
                        exact IHR tokens s st s' h
                      · simp only [k7, if_false] at h
                        by_cases k8 : (peek tokens s).value = "LED"
                        · simp only [k8, if_true] at h
                          rw [wrapStmt_ok_some_iff] at h
                          exact parseLEDStatement_ok h
                        · simp only [k8, if_false] at h
                          by_cases k9 : (peek tokens s).value = "SERVO"
                          · simp only [k9, if_true] at h
                            rw [wrapStmt_ok_some_iff] at h
                            exact parseServoStatement_ok h
                          · simp only [k9, if_false] at h
                            by_cases k10 : (peek tokens s).value = "MOTOR"
                            · simp only [k10, if_true] at h
                              rw [wrapStmt_ok_some_iff] at h
                              exact parseMotorStatement_ok h
                            · simp only [k10, if_false] at h
                              by_cases k11 : (peek tokens s).value = "WAIT"
                              · simp only [k11, if_true] at h
                                rw [wrapStmt_ok_some_iff] at h
                                exact parseWaitStatement_ok h
                              · simp only [k11, if_false] at h
                                by_cases k12 : (peek tokens s).value = "FUNCTION"
                                · simp only [k12, if_true] at h
                                  rw [wrapStmt_ok_some_iff] at h
                                  exact IHF tokens s st s' h
                                · simp only [k12, if_false] at h
                                  by_cases k13 : (peek tokens s).value = "CALL"
                                  · simp only [k13, if_true] at h
                                    rw [wrapStmt_ok_some_iff] at h
                                    exact parseCallStatement_ok h
                                  · simp only [k13, if_false] at h
                                    by_cases k14 : (peek tokens s).value = "SEND"
                                    · simp only [k14, if_true] at h
                                      rw [wrapStmt_ok_some_iff] at h
                                      exact parseSendStatement_ok h
                                    · simp only [k14, if_false] at h
                                      rw [wrapStmt_ok_some_iff] at h
                                      cases h
    · -- parseBlock
      intro tokens term s l s' h
      unfold parseBlockF at h
      by_cases h1 : (peek tokens s).value = term ∨ (peek tokens s).value = "EOF" ∨
          (peek tokens s).type = TokType.eof
      · simp only [h1, if_true] at h
        injection h with h
        injection h with hl hs
        subst hs; subst hl
        exact ⟨Nat.le_refl _, by simp [motorOkL]⟩
      · by_cases h2 : (peek tokens s).value = "END" ∨ (peek tokens s).value = "ELSE" ∨
            (peek tokens s).value = "DO"
        · simp only [h1, h2, if_false, if_true] at h
          injection h with h
          injection h with hl hs
          subst hs; subst hl
          exact ⟨Nat.le_refl _, by simp [motorOkL]⟩
        · simp only [h1, h2, if_false] at h
          split at h
          · cases h
          · rename_i s2 heqS
            injection h with h
            injection h with hl hs
            subst hs; subst hl
            obtain ⟨rfl, -⟩ := parseStatementF_none heqS
            exact ⟨Nat.le_refl _, by simp [motorOkL]⟩
          · rename_i st0 s2 heqS
            split at h
            · cases h
            · rename_i rest s3 heqB
              injection h with h
              injection h with hl hs
              subst hs; subst hl
              obtain ⟨hb1, hm1⟩ := IHS tokens s st0 s2 heqS
              obtain ⟨hb2, hm2⟩ := IHB tokens term s2 rest s3 heqB
              exact ⟨by omega, by simp [motorOkL, hm1, hm2]⟩
    · -- parseIfStatement
      intro tokens s st s' h
      unfold parseIfStatementF at h
      split at h
      · cases h
      · rename_i a1 s1 heq1
        split at h
        · cases h
        · rename_i c s2 heqc
          split at h
          · cases h
          · rename_i a2 s3 heq2
            split at h
            · cases h
            · rename_i thenBody s4 heqB1
              split at h
              · cases h
              · rename_i elseBody s5 heqE
                split at h
                · cases h
                · rename_i a3 s6 heq3
                  injection h with h
                  injection h with hst hs
                  subst hst; subst hs
                  rw [consumeExpected_ok_iff] at heq1 heq2 heq3
                  obtain ⟨-, -, hs1⟩ := heq1
                  obtain ⟨-, -, hs3⟩ := heq2
                  obtain ⟨-, -, hs6⟩ := heq3
                  have hp1 : s1.pos = s.pos + 1 := by rw [hs1]
                  have hp3 : s3.pos = s2.pos + 1 := by rw [hs3]
                  have hp6 : s6.pos = s5.pos + 1 := by rw [hs6]
                  have hp2 : s2.pos = s1.pos + 3 := by rw [parseCondition_ok heqc]
                  obtain ⟨hb1, hm1⟩ := IHB tokens "ELSE" s3 thenBody s4 heqB1
                  split at heqE
                  · split at heqE
                    · cases heqE
                    · rename_i a4 s4' heq4
                      rw [consumeExpected_ok_iff] at heq4
                      obtain ⟨-, -, hs4⟩ := heq4
                      have hp4 : s4'.pos = s4.pos + 1 := by rw [hs4]
                      obtain ⟨hb2, hm2⟩ := IHB tokens "END" s4' elseBody s5 heqE
                      refine ⟨by omega, by simp [motorOkS, hm1, hm2]⟩
                  · injection heqE with heqE
                    injection heqE with hl hs
                    subst hl
                    have hp5 : s5.pos = s4.pos := by rw [← hs]
                    refine ⟨by omega, by simp [motorOkS, hm1, motorOkL]⟩
    · -- parseWhileStatement
      intro tokens s st s' h
      unfold parseWhileStatementF at h
      split at h
      · cases h
      · rename_i a1 s1 heq1
        split at h
        · cases h
        · rename_i c s2 heqc
          split at h
          · cases h
          · rename_i a2 s3 heq2
            split at h
            · cases h
            · rename_i body s4 heqB
              split at h
              · cases h
              · rename_i a3 s5 heq3
                injection h with h
                injection h with hst hs
                subst hst; subst hs
                rw [consumeExpected_ok_iff] at heq1 heq2 heq3
                obtain ⟨-, -, hs1⟩ := heq1
                obtain ⟨-, -, hs3⟩ := heq2
                obtain ⟨-, -, hs5⟩ := heq3
                have hp1 : s1.pos = s.pos + 1 := by rw [hs1]
                have hp3 : s3.pos = s2.pos + 1 := by rw [hs3]
                have hp5 : s5.pos = s4.pos + 1 := by rw [hs5]
                have hp2 : s2.pos = s1.pos + 3 := by rw [parseCondition_ok heqc]
                obtain ⟨hb1, hm1⟩ := IHB tokens "END" s3 body s4 heqB
                exact ⟨by omega, by simp [motorOkS, hm1]⟩
    · -- parseRepeatStatement
      intro tokens s st s' h
      unfold parseRepeatStatementF at h
      split at h
      · cases h
      · rename_i a1 s1 heq1
        split at h
        · cases h
        · rename_i timesTok s2 heqT
          split at h
          · cases h
          · split at h
            · cases h
            · rename_i times heqst
              split at h
              · cases h
              · rename_i a2 s3 heq2
                split at h
                · cases h
                · rename_i body s4 heqB
                  split at h
                  · cases h
                  · rename_i a3 s5 heq3
                    injection h with h
                    injection h with hst hs
                    subst hst; subst hs
                    rw [consumeExpected_ok_iff] at heq1 heq2 heq3
                    rw [consume_ok_iff] at heqT
                    obtain ⟨-, -, hs1⟩ := heq1
                    obtain ⟨-, -, hs2⟩ := heqT
                    obtain ⟨-, -, hs3⟩ := heq2
                    obtain ⟨-, -, hs5⟩ := heq3
                    have hp1 : s1.pos = s.pos + 1 := by rw [hs1]
                    have hp2 : s2.pos = s1.pos + 1 := by rw [hs2]
                    have hp3 : s3.pos = s2.pos + 1 := by rw [hs3]
                    have hp5 : s5.pos = s4.pos + 1 := by rw [hs5]
                    obtain ⟨hb1, hm1⟩ := IHB tokens "END" s3 body s4 heqB
                    exact ⟨by omega, by simp [motorOkS, hm1]⟩
    · -- parseFunctionDef
      intro tokens s st s' h
      unfold parseFunctionDefF at h
      split at h
      · cases h
      · rename_i a1 s1 heq1
        split at h
        · cases h
        · rename_i nameTok s2 heqN
          split at h
          · cases h
          · rename_i body s3 heqB
            split at h
            · cases h
            · rename_i a2 s4 heq2
              injection h with h
              injection h with hst hs
              subst hst; subst hs
              rw [consumeExpected_ok_iff] at heq1 heq2
              rw [consume_ok_iff] at heqN
              obtain ⟨-, -, hs1⟩ := heq1
              obtain ⟨-, -, hs2⟩ := heqN
              obtain ⟨-, -, hs4⟩ := heq2
              have hp1 : s1.pos = s.pos + 1 := by rw [hs1]
              have hp2 : s2.pos = s1.pos + 1 := by rw [hs2]
              have hp4 : s4.pos = s3.pos + 1 := by rw [hs4]
              obtain ⟨hb1, hm1⟩ := IHB tokens "END"
                { s2 with declaredFunctions := insertName s2.declaredFunctions nameTok.value }
                body s3 heqB
              refine ⟨?_, by simp [motorOkS, hm1]⟩
              have hpd : ({ s2 with declaredFunctions := insertName s2.declaredFunctions nameTok.value } : PState).pos = s2.pos := rfl
              omega

theorem peek_of_ge {tokens : List Tok} {s : PState} (h : tokens.length ≤ s.pos) :
    peek tokens s = eofTok := by
  unfold peek
  exact List.getD_eq_default _ _ h

theorem peek_lt_of_value {tokens : List Tok} {s : PState} {kw : String}
    (h : (peek tokens s).value = kw) (hne : kw ≠ "EOF") : s.pos < tokens.length := by
  by_contra hge
  rw [peek_of_ge (by omega)] at h
  exact hne h.symm

theorem peek_lt_of_type {tokens : List Tok} {s : PState}
    (h : (peek tokens s).type ≠ .eof) : s.pos < tokens.length := by
  by_contra hge
  rw [peek_of_ge (by omega)] at h
  exact h rfl

theorem peek_mem_or (tokens : List Tok) (s : PState) :
    peek tokens s ∈ tokens ∨ peek tokens s = eofTok := by
  by_cases hl : s.pos < tokens.length
  · left
    unfold peek
    rw [List.getD_eq_getElem _ _ hl]
    exact List.getElem_mem _
  · right
    exact peek_of_ge (by omega)

theorem parseCondition_no_fuel {tokens : List Tok} {s : PState} :
    parseCondition tokens s ≠ .error .outOfFuel := by
  rcases parseCondition_spec tokens s with ⟨a, b, heq, -⟩ | ⟨e, heq, hne⟩ <;> rw [heq]
  · simp
  · simp [hne]

theorem parseRobotDeclaration_no_fuel {tokens : List Tok} {s : PState} :
    parseRobotDeclaration tokens s ≠ .error .outOfFuel := by
  rcases parseRobotDeclaration_spec tokens s with ⟨a, b, heq, -, -⟩ | ⟨e, heq, hne⟩ <;> rw [heq]
  · simp
  · simp [hne]

theorem parseMoveStatement_no_fuel {tokens : List Tok} {s : PState} :
    parseMoveStatement tokens s ≠ .error .outOfFuel := by
  rcases parseMoveStatement_spec tokens s with ⟨a, b, heq, -, -⟩ | ⟨e, heq, hne⟩ <;> rw [heq]
  · simp
  · simp [hne]

theorem parseTurnStatement_no_fuel {tokens : List Tok} {s : PState} :
    parseTurnStatement tokens s ≠ .error .outOfFuel := by
  rcases parseTurnStatement_spec tokens s with ⟨a, b, heq, -, -⟩ | ⟨e, heq, hne⟩ <;> rw [heq]
  · simp
  · simp [hne]

theorem parseStopStatement_no_fuel {tokens : List Tok} {s : PState} :
    parseStopStatement tokens s ≠ .error .outOfFuel := by
  rcases parseStopStatement_spec tokens s with ⟨a, b, heq, -, -⟩ | ⟨e, heq, hne⟩ <;> rw [heq]
  · simp
  · simp [hne]

theorem parseLEDStatement_no_fuel {tokens : List Tok} {s : PState} :
    parseLEDStatement tokens s ≠ .error .outOfFuel := by
  rcases parseLEDStatement_spec tokens s with ⟨a, b, heq, -, -⟩ | ⟨e, heq, hne⟩ <;> rw [heq]
  · simp
  · simp [hne]

theorem parseServoStatement_no_fuel {tokens : List Tok} {s : PState} :
    parseServoStatement tokens s ≠ .error .outOfFuel := by
  rcases parseServoStatement_spec tokens s with ⟨a, b, heq, -, -⟩ | ⟨e, heq, hne⟩ <;> rw [heq]
  · simp
  · simp [hne]

theorem parseMotorStatement_no_fuel {tokens : List Tok} {s : PState} :
    parseMotorStatement tokens s ≠ .error .outOfFuel := by
  rcases parseMotorStatement_spec tokens s with ⟨a, b, heq, -, -⟩ | ⟨e, heq, hne⟩ <;> rw [heq]
  · simp
  · simp [hne]

theorem parseWaitStatement_no_fuel {tokens : List Tok} {s : PState} :
    parseWaitStatement tokens s ≠ .error .outOfFuel := by
  rcases parseWaitStatement_spec tokens s with ⟨a, b, heq, -, -⟩ | ⟨e, heq, hne⟩ <;> rw [heq]
  · simp
  · simp [hne]

theorem parseCallStatement_no_fuel {tokens : List Tok} {s : PState} :
    parseCallStatement tokens s ≠ .error .outOfFuel := by
  rcases parseCallStatement_spec tokens s with ⟨a, b, heq, -, -⟩ | ⟨e, heq, hne⟩ <;> rw [heq]
  · simp
  · simp [hne]

theorem parseSendStatement_no_fuel {tokens : List Tok} {s : PState} :
    parseSendStatement tokens s ≠ .error .outOfFuel := by
  rcases parseSendStatement_spec tokens s with ⟨a, b, heq, -, -⟩ | ⟨e, heq, hne⟩ <;> rw [heq]
  · simp
  · simp [hne]

/-- The top-level loop: position is monotone and all returned statements
satisfy the motor-speed invariant. -/
theorem parseTopF_ok : ∀ fuel tokens s l s', parseTopF fuel tokens s = .ok (l, s') →
    s.pos ≤ s'.pos ∧ motorOkL l = true := by
  intro fuel
  induction fuel with
  | zero => intro tokens s l s' h; simp [parseTopF] at h
  | succ fuel IH =>
    intro tokens s l s' h
    unfold parseTopF at h
    split at h
    · split at h
      · cases h
      · rename_i st0 s2 heqS
        split at h
        · cases h
        · rename_i rest s3 heqT
          injection h with h
          injection h with hl hs
          subst hs; subst hl
          obtain ⟨hb1, hm1⟩ := (parser_advance fuel).1 tokens s st0 s2 heqS
          obtain ⟨hb2, hm2⟩ := IH tokens s2 rest s3 heqT
          exact ⟨by omega, by simp [motorOkL, hm1, hm2]⟩
      · rename_i s2 heqS
        obtain ⟨rfl, -⟩ := parseStatementF_none heqS
        exact IH tokens _ l s' h
    · injection h with h
      injection h with hl hs
      subst hs; subst hl
      exact ⟨Nat.le_refl _, by simp [motorOkL]⟩

/-- Whenever the token parser returns a program, every motor speed in it
lies in `[0,100]`. -/
theorem parse_ok_motorOk {tokens : List Tok} {prog : Program}
    (h : parse tokens = .ok prog) : motorOkL prog.statements = true := by
  unfold parse parseF at h
  split at h
  · cases h
  · rename_i stmts s0 heqT
    by_cases hE : checkV tokens s0 "END" = true
    · simp only [hE, if_true] at h
      split at h
      · cases h
      · injection h with h
        subst h
        exact (parseTopF_ok _ tokens initState stmts s0 heqT).2
    · simp only [hE, if_false] at h
      split at h
      · cases h
      · injection h with h
        subst h
        exact (parseTopF_ok _ tokens initState stmts s0 heqT).2

set_option maxHeartbeats 1600000 in
/-- Fuel adequacy: with a budget of `3*(remaining tokens) + c` (for the
per-rule constant `c`), no parsing rule ever runs out of fuel. -/
theorem parser_fuel_adequate : ∀ r : Nat, ∀ tokens : List Tok, ∀ s : PState,
    tokens.length - s.pos ≤ r →
    (∀ fuel, 3 * r + 1 ≤ fuel → parseIfStatementF fuel tokens s ≠ .error .outOfFuel) ∧
    (∀ fuel, 3 * r + 1 ≤ fuel → parseWhileStatementF fuel tokens s ≠ .error .outOfFuel) ∧
    (∀ fuel, 3 * r + 1 ≤ fuel → parseRepeatStatementF fuel tokens s ≠ .error .outOfFuel) ∧
    (∀ fuel, 3 * r + 1 ≤ fuel → parseFunctionDefF fuel tokens s ≠ .error .outOfFuel) ∧
    (∀ fuel, 3 * r + 2 ≤ fuel → parseStatementF fuel tokens s ≠ .error .outOfFuel) ∧
    (∀ fuel term, 3 * r + 3 ≤ fuel → parseBlockF fuel tokens term s ≠ .error .outOfFuel) := by
  intro r
  induction r using Nat.strong_induction_on with
  | _ r IH =>
  intro tokens s hr
  have hIf : ∀ fuel, 3 * r + 1 ≤ fuel → parseIfStatementF fuel tokens s ≠ .error .outOfFuel := by
    intro fuel hfb h
    obtain ⟨f, rfl⟩ : ∃ f, fuel = f + 1 := ⟨fuel - 1, by omega⟩
    unfold parseIfStatementF at h
    split at h
    · rename_i e0 heq
      rw [consumeExpected_error_iff] at heq
      obtain ⟨-, rfl⟩ := heq
      simp at h
    · rename_i a1 s1 heq1
      split at h
      · rename_i e0 heqc
        injection h with h
        subst h
        exact parseCondition_no_fuel heqc
      · rename_i c s2 heqc
        split at h
        · rename_i e0 heq2
          rw [consumeExpected_error_iff] at heq2
          obtain ⟨-, rfl⟩ := heq2
          simp at h
        · rename_i a2 s3 heq2
          rw [consumeExpected_ok_iff] at heq1 heq2
          obtain ⟨hv1, -, hs1⟩ := heq1
          obtain ⟨hv2, -, hs3⟩ := heq2
          have hp1 : s1.pos = s.pos + 1 := by rw [hs1]
          have hp2 : s2.pos = s1.pos + 3 := by rw [parseCondition_ok heqc]
          have hp3 : s3.pos = s2.pos + 1 := by rw [hs3]
          have hlt2 : s2.pos < tokens.length := peek_lt_of_value hv2 (by decide)
          split at h
          · rename_i e0 heqB
            injection h with h
            subst h
            exact (IH (r - 5) (by omega) tokens s3 (by omega)).2.2.2.2.2
              f "ELSE" (by omega) heqB
          · rename_i thenBody s4 heqB1
            have hm4 := ((parser_advance f).2.1 tokens "ELSE" s3 thenBody s4 heqB1).1
            split at h
            · rename_i e0 heqE
              injection h with h
              subst h
              split at heqE
              · split at heqE
                · rename_i e1 heq4
                  rw [consumeExpected_error_iff] at heq4
                  obtain ⟨-, rfl⟩ := heq4
                  simp at heqE
                · rename_i a4 s4' heq4
                  rw [consumeExpected_ok_iff] at heq4
                  obtain ⟨hv4, -, hs4⟩ := heq4
                  have hp4 : s4'.pos = s4.pos + 1 := by rw [hs4]
                  have hlt4 : s4.pos < tokens.length := peek_lt_of_value hv4 (by decide)
                  exact (IH (r - 6) (by omega) tokens s4' (by omega)).2.2.2.2.2
                    f "END" (by omega) heqE
              · cases heqE
            · rename_i elseBody s5 heqE
              split at h
              · rename_i e0 heq3
                rw [consumeExpected_error_iff] at heq3
                obtain ⟨-, rfl⟩ := heq3
                simp at h
              · cases h
  have hW : ∀ fuel, 3 * r + 1 ≤ fuel → parseWhileStatementF fuel tokens s ≠ .error .outOfFuel := by
    intro fuel hfb h
    obtain ⟨f, rfl⟩ : ∃ f, fuel = f + 1 := ⟨fuel - 1, by omega⟩
    unfold parseWhileStatementF at h
    split at h
    · rename_i e0 heq
      rw [consumeExpected_error_iff] at heq
      obtain ⟨-, rfl⟩ := heq
      simp at h
    · rename_i a1 s1 heq1
      split at h
      · rename_i e0 heqc
        injection h with h
        subst h
        exact parseCondition_no_fuel heqc
      · rename_i c s2 heqc
        split at h
        · rename_i e0 heq2
          rw [consumeExpected_error_iff] at heq2
          obtain ⟨-, rfl⟩ := heq2
          simp at h
        · rename_i a2 s3 heq2
          rw [consumeExpected_ok_iff] at heq1 heq2
          obtain ⟨hv1, -, hs1⟩ := heq1
          obtain ⟨hv2, -, hs3⟩ := heq2
          have hp1 : s1.pos = s.pos + 1 := by rw [hs1]
          have hp2 : s2.pos = s1.pos + 3 := by rw [parseCondition_ok heqc]
          have hp3 : s3.pos = s2.pos + 1 := by rw [hs3]
          have hlt2 : s2.pos < tokens.length := peek_lt_of_value hv2 (by decide)
          split at h
          · rename_i e0 heqB
            injection h with h
            subst h
            exact (IH (r - 5) (by omega) tokens s3 (by omega)).2.2.2.2.2
              f "END" (by omega) heqB
          · rename_i body s4 heqB
            split at h
            · rename_i e0 heq3
              rw [consumeExpected_error_iff] at heq3
              obtain ⟨-, rfl⟩ := heq3
              simp at h
            · cases h
  have hR : ∀ fuel, 3 * r + 1 ≤ fuel → parseRepeatStatementF fuel tokens s ≠ .error .outOfFuel := by
    intro fuel hfb h
    obtain ⟨f, rfl⟩ : ∃ f, fuel = f + 1 := ⟨fuel - 1, by omega⟩
    unfold parseRepeatStatementF at h
    split at h
    · rename_i e0 heq
      rw [consumeExpected_error_iff] at heq
      obtain ⟨-, rfl⟩ := heq
      simp at h
    · rename_i a1 s1 heq1
      split at h
      · rename_i e0 heqT
        rw [consume_error_iff] at heqT
        obtain ⟨-, rfl⟩ := heqT
        simp at h
      · rename_i timesTok s2 heqT
        split at h
        · simp at h
        · split at h
          · simp at h
          · rename_i times heqst
            split at h
            · rename_i e0 heq2
              rw [consumeExpected_error_iff] at heq2
              obtain ⟨-, rfl⟩ := heq2
              simp at h
            · rename_i a2 s3 heq2
              rw [consumeExpected_ok_iff] at heq1 heq2
              rw [consume_ok_iff] at heqT
              obtain ⟨hv1, -, hs1⟩ := heq1
              obtain ⟨hlt1, -, hs2⟩ := heqT
              obtain ⟨hv2, -, hs3⟩ := heq2
              have hp1 : s1.pos = s.pos + 1 := by rw [hs1]
              have hp2 : s2.pos = s1.pos + 1 := by rw [hs2]
              have hp3 : s3.pos = s2.pos + 1 := by rw [hs3]
              have hlt2 : s2.pos < tokens.length := peek_lt_of_value hv2 (by decide)
              split at h
              · rename_i e0 heqB
                injection h with h
                subst h
                exact (IH (r - 3) (by omega) tokens s3 (by omega)).2.2.2.2.2
                  f "END" (by omega) heqB
              · rename_i body s4 heqB
                split at h
                · rename_i e0 heq3
                  rw [consumeExpected_error_iff] at heq3
                  obtain ⟨-, rfl⟩ := heq3
                  simp at h
                · cases h
  have hF : ∀ fuel, 3 * r + 1 ≤ fuel → parseFunctionDefF fuel tokens s ≠ .error .outOfFuel := by
    intro fuel hfb h
    obtain ⟨f, rfl⟩ : ∃ f, fuel = f + 1 := ⟨fuel - 1, by omega⟩
    unfold parseFunctionDefF at h
    split at h
    · rename_i e0 heq
      rw [consumeExpected_error_iff] at heq
      obtain ⟨-, rfl⟩ := heq
      simp at h
    · rename_i a1 s1 heq1
      split at h
      · rename_i e0 heqN
        rw [consume_error_iff] at heqN
        obtain ⟨-, rfl⟩ := heqN
        simp at h
      · rename_i nameTok s2 heqN
        rw [consumeExpected_ok_iff] at heq1
        rw [consume_ok_iff] at heqN
        obtain ⟨hv1, -, hs1⟩ := heq1
        obtain ⟨hlt1, -, hs2⟩ := heqN
        have hp1 : s1.pos = s.pos + 1 := by rw [hs1]
        have hp2 : s2.pos = s1.pos + 1 := by rw [hs2]
        split at h
        · rename_i e0 heqB
          injection h with h
          subst h
          have hpd : ({ s2 with declaredFunctions := insertName s2.declaredFunctions nameTok.value } : PState).pos = s2.pos := rfl
          exact (IH (r - 2) (by omega) tokens
            { s2 with declaredFunctions := insertName s2.declaredFunctions nameTok.value }
            (by omega)).2.2.2.2.2 f "END" (by omega) heqB
        · rename_i body s3 heqB
          split at h
          · rename_i e0 heq2
            rw [consumeExpected_error_iff] at heq2
            obtain ⟨-, rfl⟩ := heq2
            simp at h
          · cases h
  have hS : ∀ fuel, 3 * r + 2 ≤ fuel → parseStatementF fuel tokens s ≠ .error .outOfFuel := by
    intro fuel hfb h
    obtain ⟨f, rfl⟩ : ∃ f, fuel = f + 1 := ⟨fuel - 1, by omega⟩
    unfold parseStatementF at h
    by_cases h1 : (peek tokens s).type = TokType.eof
    · simp [h1] at h
    · by_cases h2 : (peek tokens s).value = "END"
      · simp [h1, h2] at h
      · simp only [h1, h2, if_false] at h
        replace h := wrapStmt_error_fuel h
        by_cases k1 : (peek tokens s).value = "ROBOT"
        · simp only [k1, if_true] at h
          exact parseRobotDeclaration_no_fuel h
        · simp only [k1, if_false] at h
          by_cases k2 : (peek tokens s).value = "MOVE"
          · simp only [k2, if_true] at h
            exact parseMoveStatement_no_fuel h
          · simp only [k2, if_false] at h
            by_cases k3 : (peek tokens s).value = "TURN"
            · simp only [k3, if_true] at h
              exact parseTurnStatement_no_fuel h
            · simp only [k3, if_false] at h
              by_cases k4 : (peek tokens s).value = "STOP"
              · simp only [k4, if_true] at h
                exact parseStopStatement_no_fuel h
              · simp only [k4, if_false] at h
                by_cases k5 : (peek tokens s).value = "IF"
                · simp only [k5, if_true] at h
                  exact hIf f (by omega) h
                · simp only [k5, if_false] at h
                  by_cases k6 : (peek tokens s).value = "WHILE"
                  · simp only [k6, if_true] at h
                    exact hW f (by omega) h
                  · simp only [k6, if_false] at h
                    by_cases k7 : (peek tokens s).value = "REPEAT"
                    · simp only [k7, if_true] at h
                      exact hR f (by omega) h
                    · simp only [k7, if_false] at h
                      by_cases k8 : (peek tokens s).value = "LED"
                      · simp only [k8, if_true] at h
                        exact parseLEDStatement_no_fuel h
                      · simp only [k8, if_false] at h
                        by_cases k9 : (peek tokens s).value = "SERVO"
                        · simp only [k9, if_true] at h
                          exact parseServoStatement_no_fuel h
                        · simp only [k9, if_false] at h
                          by_cases k10 : (peek tokens s).value = "MOTOR"
                          · simp only [k10, if_true] at h
                            exact parseMotorStatement_no_fuel h
                          · simp only [k10, if_false] at h
                            by_cases k11 : (peek tokens s).value = "WAIT"
                            · simp only [k11, if_true] at h
                              exact parseWaitStatement_no_fuel h
                            · simp only [k11, if_false] at h
                              by_cases k12 : (peek tokens s).value = "FUNCTION"
                              · simp only [k12, if_true] at h
                                exact hF f (by omega) h
                              · simp only [k12, if_false] at h
                                by_cases k13 : (peek tokens s).value = "CALL"
                                · simp only [k13, if_true] at h
                                  exact parseCallStatement_no_fuel h
                                · simp only [k13, if_false] at h
                                  by_cases k14 : (peek tokens s).value = "SEND"
                                  · simp only [k14, if_true] at h
                                    exact parseSendStatement_no_fuel h
                                  · simp only [k14, if_false] at h
                                    simp at h
  have hB : ∀ fuel term, 3 * r + 3 ≤ fuel → parseBlockF fuel tokens term s ≠ .error .outOfFuel := by
    intro fuel term hfb h
    obtain ⟨f, rfl⟩ : ∃ f, fuel = f + 1 := ⟨fuel - 1, by omega⟩
    unfold parseBlockF at h
    by_cases h1 : (peek tokens s).value = term ∨ (peek tokens s).value = "EOF" ∨
        (peek tokens s).type = TokType.eof
    · simp [h1] at h
    · by_cases h2 : (peek tokens s).value = "END" ∨ (peek tokens s).value = "ELSE" ∨
          (peek tokens s).value = "DO"
      · simp [h1, h2] at h
      · simp only [h1, h2, if_false] at h
        have hlt : s.pos < tokens.length := by
          refine peek_lt_of_type fun hty => h1 (Or.inr (Or.inr hty))
        split at h
        · rename_i e0 heqS
          injection h with h
          subst h
          exact hS f (by omega) heqS
        · cases h
        · rename_i st0 s2 heqS
          have hm1 := ((parser_advance f).1 tokens s st0 s2 heqS).1
          split at h
          · rename_i e0 heqB
            injection h with h
            subst h
            exact (IH (r - 1) (by omega) tokens s2 (by omega)).2.2.2.2.2
              f term (by omega) heqB
          · cases h
  exact ⟨hIf, hW, hR, hF, hS, hB⟩

theorem wrapStmt_not_std {token : Tok} {r : Except PError (Stmt × PState)} {e : PError}
    (h : wrapStmt token r = .error e) : ∀ m, e ≠ .stdExc m := by
  intro m hc
  subst hc
  rcases r with e0 | ⟨st, s'⟩
  · cases e0 <;> simp [wrapStmt] at h
  · simp [wrapStmt] at h

/-- A statement-level error is never a raw `std::exception`. -/
theorem parseStatementF_not_std {fuel : Nat} {tokens : List Tok} {s : PState} {e : PError}
    (h : parseStatementF fuel tokens s = .error e) : ∀ m, e ≠ .stdExc m := by
  match fuel with
  | 0 =>
    rw [show parseStatementF 0 tokens s = .error .outOfFuel from rfl] at h
    injection h with h
    subst h
    intro m hc
    cases hc
  | fuel + 1 =>
    unfold parseStatementF at h
    by_cases h1 : (peek tokens s).type = TokType.eof
    · simp [h1] at h
    · by_cases h2 : (peek tokens s).value = "END"
      · simp [h1, h2] at h
      · simp only [h1, h2, if_false] at h
        exact wrapStmt_not_std h

/-- A top-level loop error is never a raw `std::exception`. -/
theorem parseTopF_not_std : ∀ fuel tokens s e, parseTopF fuel tokens s = .error e →
    ∀ m, e ≠ .stdExc m := by
  intro fuel
  induction fuel with
  | zero =>
    intro tokens s e h
    rw [show parseTopF 0 tokens s = .error .outOfFuel from rfl] at h
    injection h with h
    subst h
    intro m hc
    cases hc
  | succ fuel IH =>
    intro tokens s e h
    unfold parseTopF at h
    split at h
    · split at h
      · rename_i e0 heqS
        injection h with h
        subst h
        exact parseStatementF_not_std heqS
      · rename_i st0 s2 heqS
        split at h
        · rename_i e0 heqT
          injection h with h
          subst h
          exact IH tokens s2 e0 heqT
        · cases h
      · rename_i s2 heqS
        exact IH tokens s2 e h
    · cases h

/-- The `SemanticException` produced by a failing semantic pass: it names
a called-but-undeclared function and lists the declared ones. -/
theorem semanticAnalysisCheck_shape {declared called : List String} {e : PError}
    (h : semanticAnalysisCheck declared called = some e) :
    ∃ n, n ∈ called ∧ declared.contains n = false ∧
      e = .semanticError ("Function '" ++ n ++ "' is called but never defined")
        ("Available functions: " ++ availableFuncsString declared) := by
  unfold semanticAnalysisCheck at h
  split at h
  · rename_i n heqf
    injection h with h
    subst h
    have hmem := List.mem_of_find?_eq_some heqf
    have hprop := List.find?_some heqf
    simp only [Bool.not_eq_true'] at hprop
    exact ⟨n, hmem, hprop, rfl⟩
  · cases h

/-- Fuel adequacy for the top-level loop. -/
theorem parseTopF_adequate : ∀ r tokens s, tokens.length - s.pos ≤ r →
    ∀ fuel, 3 * r + 3 ≤ fuel → parseTopF fuel tokens s ≠ .error .outOfFuel := by
  intro r
  induction r using Nat.strong_induction_on with
  | _ r IH =>
  intro tokens s hr fuel hfb h
  obtain ⟨f, rfl⟩ : ∃ f, fuel = f + 1 := ⟨fuel - 1, by omega⟩
  unfold parseTopF at h
  split at h
  · rename_i hcond
    obtain ⟨hc1, hc2, hc3⟩ := hcond
    have hlt : s.pos < tokens.length := peek_lt_of_type hc2
    split at h
    · rename_i e0 heqS
      injection h with h
      subst h
      exact (parser_fuel_adequate r tokens s hr).2.2.2.2.1 f (by omega) heqS
    · rename_i st0 s2 heqS
      have hm1 := ((parser_advance f).1 tokens s st0 s2 heqS).1
      split at h
      · rename_i e0 heqT
        injection h with h
        subst h
        exact IH (r - 1) (by omega) tokens s2 (by omega) f (by omega) heqT
      · cases h
    · rename_i s2 heqS
      obtain ⟨rfl, hv⟩ := parseStatementF_none heqS
      rcases hv with hv | hv
      · exact hc2 hv
      · exact hc3 (by simp [checkV, hv])
  · cases h

/-- `Parser::parse` never exhausts the canonical fuel: the model's
rendering of the fact that the C++ parsing loops always terminate. -/
theorem parse_no_outOfFuel (tokens : List Tok) : parse tokens ≠ .error .outOfFuel := by
  intro h
  unfold parse parseF at h
  split at h
  · rename_i e0 heqT
    injection h with h
    subst h
    exact parseTopF_adequate tokens.length tokens initState
      (by omega : tokens.length - 0 ≤ tokens.length)
      (canonicalFuel tokens) (by unfold canonicalFuel; omega) heqT
  · rename_i stmts s0 heqT
    by_cases hE : checkV tokens s0 "END" = true
    · simp only [hE, if_true] at h
      split at h
      · rename_i e0 heqSem
        injection h with h
        subst h
        obtain ⟨n, -, -, heq⟩ := semanticAnalysisCheck_shape heqSem
        cases heq
      · cases h
    · simp only [hE, if_false] at h
      split at h
      · rename_i e0 heqSem
        injection h with h
        subst h
        obtain ⟨n, -, -, heq⟩ := semanticAnalysisCheck_shape heqSem
        cases heq
      · cases h

/-- Any error `Parser::parse` reports is a `ParserException` or a
`SemanticException` (never a raw `std::exception`, never fuel exhaustion). -/
theorem parse_error_isException {tokens : List Tok} {e : PError}
    (h : parse tokens = .error e) : e.isException := by
  have hstd : ∀ m, e ≠ .stdExc m := by
    unfold parse parseF at h
    split at h
    · rename_i e0 heqT
      injection h with h
      subst h
      exact parseTopF_not_std _ tokens initState e0 heqT
    · rename_i stmts s0 heqT
      by_cases hE : checkV tokens s0 "END" = true
      · simp only [hE, if_true] at h
        split at h
        · rename_i e0 heqSem
          injection h with h
          subst h
          obtain ⟨n, -, -, rfl⟩ := semanticAnalysisCheck_shape heqSem
          intro m hc
          cases hc
        · cases h
      · simp only [hE, if_false] at h
        split at h
        · rename_i e0 heqSem
          injection h with h
          subst h
          obtain ⟨n, -, -, rfl⟩ := semanticAnalysisCheck_shape heqSem
          intro m hc
          cases hc
        · cases h
  have hfuel : e ≠ .outOfFuel := by
    intro hc
    subst hc
    exact parse_no_outOfFuel tokens h
  cases e with
  | parserError msg line column expected found => exact trivial
  | semanticError msg context => exact trivial
  | stdExc m => exact absurd rfl (hstd m)
  | outOfFuel => exact absurd rfl hfuel

/-- An `IF` statement can only parse successfully by consuming an `END`
token; with no `END` anywhere in the stream it always throws. -/
theorem parseIfStatementF_no_end {tokens : List Tok}
    (hne : ∀ t ∈ tokens, t.value ≠ "END") :
    ∀ fuel s res, parseIfStatementF fuel tokens s ≠ .ok res := by
  intro fuel s res h
  match fuel with
  | 0 =>
    rw [show parseIfStatementF 0 tokens s = .error .outOfFuel from rfl] at h
    cases h
  | fuel + 1 =>
    unfold parseIfStatementF at h
    split at h
    · cases h
    · rename_i a1 s1 heq1
      split at h
      · cases h
      · rename_i c s2 heqc
        split at h
        · cases h
        · rename_i a2 s3 heq2
          split at h
          · cases h
          · rename_i thenBody s4 heqB1
            split at h
            · cases h
            · rename_i elseBody s5 heqE
              split at h
              · cases h
              · rename_i a3 s6 heq3
                rw [consumeExpected_ok_iff] at heq3
                obtain ⟨hv3, -, -⟩ := heq3
                rcases peek_mem_or tokens s5 with hm | hm
                · exact hne _ hm hv3
                · rw [hm] at hv3
                  exact absurd hv3 (by decide)

/-- With an `IF`-valued, non-EOF token under the cursor, `parseStatement`
is exactly the wrapped `parseIfStatement` call. -/
theorem parseStatementF_if_step {tokens : List Tok} {s : PState} {fuel : Nat}
    (hIF : (peek tokens s).value = "IF") (htype : (peek tokens s).type ≠ TokType.eof) :
    parseStatementF (fuel + 1) tokens s =
      wrapStmt (peek tokens s) (parseIfStatementF fuel tokens s) := by
  unfold parseStatementF
  simp only [hIF, htype, if_false, if_true, eq_self_iff_true,
    show ("IF" : String) ≠ "END" from by decide,
    show ("IF" : String) ≠ "ROBOT" from by decide,
    show ("IF" : String) ≠ "MOVE" from by decide,
    show ("IF" : String) ≠ "TURN" from by decide,
    show ("IF" : String) ≠ "STOP" from by decide]

/-- One failing step of the top-level loop propagates the error. -/
theorem parseTopF_error_step {tokens : List Tok} {s : PState} {fuel : Nat} {e : PError}
    (h1 : (peek tokens s).value ≠ "EOF") (h2 : (peek tokens s).type ≠ TokType.eof)
    (h3 : (peek tokens s).value ≠ "END")
    (hS : parseStatementF fuel tokens s = .error e) :
    parseTopF (fuel + 1) tokens s = .error e := by
  unfold parseTopF
  rw [if_pos ⟨by simp [checkV, h1], h2, by simp [checkV, h3]⟩, hS]

theorem parseF_error_of_topF {fuel : Nat} {tokens : List Tok} {e : PError}
    (h : parseTopF fuel tokens initState = .error e) : parseF fuel tokens = .error e := by
  unfold parseF
  rw [h]

/-- A program whose first token is `IF` and which contains no `END` token
at all: `parse` terminates with a `ParserException` or `SemanticException`. -/
theorem parse_if_unterminated {tokens : List Tok} {ifTok : Tok} {rest : List Tok}
    (htok : tokens = ifTok :: rest) (hIF : ifTok.value = "IF")
    (htype : ifTok.type ≠ TokType.eof) (hne : ∀ t ∈ tokens, t.value ≠ "END") :
    ∃ e, parse tokens = .error e ∧ e.isException := by
  subst htok
  have hpeek : peek (ifTok :: rest) initState = ifTok := rfl
  obtain ⟨e0, hIfRes⟩ : ∃ e0,
      parseIfStatementF (3 * (ifTok :: rest).length + 2) (ifTok :: rest) initState =
        .error e0 := by
    rcases hres : parseIfStatementF (3 * (ifTok :: rest).length + 2) (ifTok :: rest)
        initState with e0 | res
    · exact ⟨e0, rfl⟩
    · exact absurd hres (parseIfStatementF_no_end hne _ _ _)
  have hS := @parseStatementF_if_step (ifTok :: rest) initState
    (3 * (ifTok :: rest).length + 2) (hpeek ▸ hIF) (hpeek ▸ htype)
  rw [hIfRes, hpeek] at hS
  have he0 : e0 ≠ .outOfFuel := by
    intro hc
    subst hc
    exact (parser_fuel_adequate (ifTok :: rest).length (ifTok :: rest) initState
      (by omega : (ifTok :: rest).length - 0 ≤ (ifTok :: rest).length)).1
      (3 * (ifTok :: rest).length + 2) (by omega) hIfRes
  have hv1 : (peek (ifTok :: rest) initState).value ≠ "EOF" := by
    rw [hpeek, hIF]; decide
  have hv2 : (peek (ifTok :: rest) initState).type ≠ TokType.eof := by
    rw [hpeek]; exact htype
  have hv3 : (peek (ifTok :: rest) initState).value ≠ "END" := by
    rw [hpeek, hIF]; decide
  have hcf : canonicalFuel (ifTok :: rest) = 3 * (ifTok :: rest).length + 2 + 1 + 1 := by
    unfold canonicalFuel; omega
  cases e0 with
  | parserError m1 l1 c1 x1 f1 =>
    simp only [wrapStmt] at hS
    have hT := parseTopF_error_step hv1 hv2 hv3 hS
    refine ⟨.parserError m1 l1 c1 x1 f1, ?_, trivial⟩
    have := parseF_error_of_topF hT
    rw [← hcf] at this
    exact this
  | semanticError m1 c1 =>
    simp only [wrapStmt] at hS
    have hT := parseTopF_error_step hv1 hv2 hv3 hS
    refine ⟨.semanticError m1 c1, ?_, trivial⟩
    have := parseF_error_of_topF hT
    rw [← hcf] at this
    exact this
  | stdExc m1 =>
    simp only [wrapStmt] at hS
    have hT := parseTopF_error_step hv1 hv2 hv3 hS
    refine ⟨.parserError ("Error parsing statement: " ++ m1) ifTok.line ifTok.column
      "Valid statement" ifTok.value, ?_, trivial⟩
    have := parseF_error_of_topF hT
    rw [← hcf] at this
    exact this
  | outOfFuel => exact absurd rfl he0

/-- The semantic pass succeeds exactly when every called name is declared:
`called − declared = ∅`. -/
theorem semanticAnalysisCheck_none_iff {declared called : List String} :
    semanticAnalysisCheck declared called = none ↔ ∀ n ∈ called, n ∈ declared := by
  unfold semanticAnalysisCheck
  split
  · rename_i n heqf
    have hprop := List.find?_some heqf
    have hmem := List.mem_of_find?_eq_some heqf
    simp only [Bool.not_eq_true'] at hprop
    constructor
    · intro hc
      cases hc
    · intro hall
      have hc : declared.contains n = true := List.elem_eq_true_of_mem (hall n hmem)
      rw [hprop] at hc
      cases hc
  · rename_i heqf
    constructor
    · intro _ n hn
      have hfa := List.find?_eq_none.mp heqf n hn
      have hcn : declared.contains n = true := by
        cases hcn : declared.contains n
        · exact absurd (show (!declared.contains n) = true by rw [hcn]; rfl) hfa
        · rfl
      exact List.mem_of_elem_eq_true hcn
    · intro _
      rfl

/-- Success of the semantic pass depends only on the membership sets of
the two accumulators, not on registration order. -/
theorem semanticAnalysisCheck_order_independent {d1 d2 c1 c2 : List String}
    (hd : ∀ n, n ∈ d1 ↔ n ∈ d2) (hc : ∀ n, n ∈ c1 ↔ n ∈ c2) :
    (semanticAnalysisCheck d1 c1 = none ↔ semanticAnalysisCheck d2 c2 = none) := by
  rw [semanticAnalysisCheck_none_iff, semanticAnalysisCheck_none_iff]
  constructor
  · intro hall n hn
    exact (hd n).mp (hall n ((hc n).mpr hn))
  · intro hall n hn
    exact (hd n).mpr (hall n ((hc n).mp hn))

/-- `parse` after a successful top-level loop: the result is decided by
the semantic pass on the final accumulators. -/
theorem parseF_sem {fuel : Nat} {tokens : List Tok} {stmts : List Stmt} {s0 : PState}
    (hT : parseTopF fuel tokens initState = .ok (stmts, s0)) :
    parseF fuel tokens =
      (match semanticAnalysisCheck s0.declaredFunctions s0.calledFunctions with
        | some e => .error e
        | none => .ok ⟨stmts⟩) := by
  unfold parseF
  rw [hT]
  dsimp only
  by_cases hE : checkV tokens s0 "END" = true
  · rw [if_pos hE]
  · rw [if_neg hE]

/-- After a successful top-level loop, `parse` throws exactly when the
semantic pass on the final accumulators reports an error, and returns the
parsed program exactly when it does not. -/
theorem parse_semantic_link {tokens : List Tok} {stmts : List Stmt} {s0 : PState}
    (hT : parseTopF (canonicalFuel tokens) tokens initState = .ok (stmts, s0)) :
    (∀ e, parse tokens = .error e ↔
      semanticAnalysisCheck s0.declaredFunctions s0.calledFunctions = some e) ∧
    (parse tokens = .ok ⟨stmts⟩ ↔
      semanticAnalysisCheck s0.declaredFunctions s0.calledFunctions = none) := by
  have heq : parse tokens =
      (match semanticAnalysisCheck s0.declaredFunctions s0.calledFunctions with
        | some e => .error e
        | none => .ok ⟨stmts⟩) := parseF_sem hT
  rcases hsem : semanticAnalysisCheck s0.declaredFunctions s0.calledFunctions with - | e'
  · rw [hsem] at heq
    rw [heq]
    simp
  · rw [hsem] at heq
    rw [heq]
    simp

end Parser

namespace PeglibParser

theorem clampSpeed_mem (x : Int) : 0 ≤ clampSpeed x ∧ clampSpeed x ≤ 100 := by
  simp only [clampSpeed]
  split <;> split <;> omega

theorem parseWait_ok {line : String} {st : Stmt} (h : parseWait line = some st) :
    motorOkS st = true := by
  simp only [parseWait] at h
  split at h
  · cases h
  · split at h
    · injection h with h
      subst h
      simp [motorOkS]
    · cases h

theorem parseLED_ok {line : String} {st : Stmt} (h : parseLED line = some st) :
    motorOkS st = true := by
  simp only [parseLED] at h
  split at h
  · cases h
  · injection h with h
    subst h
    simp [motorOkS]

theorem parseMotor_ok {line : String} {st : Stmt} (h : parseMotor line = some st) :
    motorOkS st = true := by
  simp only [parseMotor] at h
  split at h
  · cases h
  · split at h
    · split at h
      · injection h with h
        subst h
        simp only [motorOkS, decide_eq_true_eq]
        exact clampSpeed_mem _
      · cases h
    · split at h
      · split at h
        · injection h with h
          subst h
          simp only [motorOkS, decide_eq_true_eq]
          exact clampSpeed_mem _
        · cases h
      · split at h
        · split at h
          · injection h with h
            subst h
            simp only [motorOkS, decide_eq_true_eq]
            exact clampSpeed_mem _
          · cases h
        · cases h

/-- Line-loop induction: every statement the Peglib parser accumulates
satisfies the motor-speed invariant. -/
theorem peg_motorOk : ∀ fuel lines index,
    motorOkL (parseStatementsF fuel lines index).1 = true ∧
    (∀ st index', parseRepeatF fuel lines index = (some st, index') →
      motorOkS st = true) := by
  intro fuel
  induction fuel with
  | zero =>
    intro lines index
    exact ⟨by simp [parseStatementsF, motorOkL],
      fun st i h => by simp [parseRepeatF] at h⟩
  | succ fuel IH =>
    intro lines index
    constructor
    · simp only [parseStatementsF]
      split
      · split
        · simp [motorOkL]
        · split
          · split
            · rename_i st0 idx2 heqR
              simp only [motorOkL]
              rw [(IH lines index).2 st0 idx2 heqR, (IH lines idx2).1]
              rfl
            · exact (IH lines _).1
          · split
            · split
              · rename_i st0 heqW
                simp only [motorOkL]
                rw [parseWait_ok heqW, (IH lines (index + 1)).1]
                rfl
              · exact (IH lines _).1
            · split
              · split
                · rename_i st0 heqL
                  simp only [motorOkL]
                  rw [parseLED_ok heqL, (IH lines (index + 1)).1]
                  rfl
                · exact (IH lines _).1
              · split
                · split
                  · rename_i st0 heqM
                    simp only [motorOkL]
                    rw [parseMotor_ok heqM, (IH lines (index + 1)).1]
                    rfl
                  · exact (IH lines _).1
                · split
                  · simp only [motorOkL]
                    rw [(IH lines (index + 1)).1]
                    simp [motorOkS]
                  · exact (IH lines _).1
      · simp [motorOkL]
    · intro st index' h
      simp only [parseRepeatF] at h
      split at h
      · cases h
      · split at h
        · cases h
        · injection h with h1 h2
          injection h1 with h1
          subst h1
          simp only [motorOkS]
          exact (IH lines _).1

/-- Whenever the Peglib parser returns a program, every motor speed in it
lies in `[0,100]`. -/
theorem peg_parse_ok_motorOk {source : String} {prog : Program}
    (h : parse source = .ok prog) : motorOkL prog.statements = true := by
  simp only [parse, semanticAnalysisCheck, List.find?] at h
  injection h with h
  subst h
  exact (peg_motorOk _ _ _).1

end PeglibParser

/-- C2: Whole-program validation of calls. After `Parser::parse` finishes
parsing, it throws exactly when the semantic pass on the accumulated
called/declared sets reports an error; that pass fails iff some called name
is missing from the declared set (`called − declared ≠ ∅`), and the thrown
`SemanticException` names one undefined function and lists all declared
functions (or `none`). Success of the pass depends only on the membership
sets, hence not on whether each `CALL` occurs before or after the
`FUNCTION` it names; concretely, `CALL doPing` before or after
`FUNCTION doPing END` both parse, and an undefined `CALL doPing` throws
the exact `SemanticException`. -/
theorem C2_undefined_call_validation :
    (∀ tokens stmts s0,
      Parser.parseTopF (Parser.canonicalFuel tokens) tokens Parser.initState =
        .ok (stmts, s0) →
      (∀ e, Parser.parse tokens = .error e ↔
        Parser.semanticAnalysisCheck s0.declaredFunctions s0.calledFunctions = some e) ∧
      (Parser.parse tokens = .ok ⟨stmts⟩ ↔
        Parser.semanticAnalysisCheck s0.declaredFunctions s0.calledFunctions = none)) ∧
    (∀ declared called, Parser.semanticAnalysisCheck declared called = none ↔
      ∀ n ∈ called, n ∈ declared) ∧
    (∀ declared called e, Parser.semanticAnalysisCheck declared called = some e →
      ∃ n, n ∈ called ∧ declared.contains n = false ∧
        e = .semanticError ("Function '" ++ n ++ "' is called but never defined")
          ("Available functions: " ++ Parser.availableFuncsString declared)) ∧
    (∀ d1 d2 c1 c2 : List String, (∀ n, n ∈ d1 ↔ n ∈ d2) → (∀ n, n ∈ c1 ↔ n ∈ c2) →
      (Parser.semanticAnalysisCheck d1 c1 = none ↔
        Parser.semanticAnalysisCheck d2 c2 = none)) ∧
    Parser.parse callBeforeDefToks = .ok ⟨[.call "doPing", .functionDef "doPing" []]⟩ ∧
    Parser.parse defBeforeCallToks = .ok ⟨[.functionDef "doPing" [], .call "doPing"]⟩ ∧
    Parser.parse undefinedCallToks = .error (.semanticError
      "Function 'doPing' is called but never defined" "Available functions: none") := by
  refine ⟨fun tokens stmts s0 hT => Parser.parse_semantic_link hT,
    fun declared called => Parser.semanticAnalysisCheck_none_iff,
    fun declared called e h => Parser.semanticAnalysisCheck_shape h,
    fun d1 d2 c1 c2 hd hc => Parser.semanticAnalysisCheck_order_independent hd hc,
    by rfl, by rfl, by rfl⟩

/-- C3: Every `MotorStatement` in any program either parser returns has
its speed in `[0,100]` (`motorOkS (.motor name speed)` is exactly that
bound): the token parser rejects `MOTOR left SPEED 150` with the
`SemanticException`, the line parser clamps `MOTOR SPEED 150` to 100, and
`clampSpeed` always lands in `[0,100]`. -/
theorem C3_motor_speed_invariant :
    (∀ name speed, motorOkS (.motor name speed) = decide (0 ≤ speed ∧ speed ≤ 100)) ∧
    (∀ tokens prog, Parser.parse tokens = .ok prog → motorOkL prog.statements = true) ∧
    (∀ source prog, PeglibParser.parse source = .ok prog →
      motorOkL prog.statements = true) ∧
    Parser.parse motor150Toks = .error (.semanticError
      "Motor speed must be between 0 and 100" "Found: 150") ∧
    PeglibParser.parse "MOTOR SPEED 150" = .ok ⟨[.motor "default" 100]⟩ ∧
    (∀ x : Int, 0 ≤ PeglibParser.clampSpeed x ∧ PeglibParser.clampSpeed x ≤ 100) := by
  refine ⟨fun name speed => by simp [motorOkS],
    fun tokens prog h => Parser.parse_ok_motorOk h,
    fun source prog h => PeglibParser.peg_parse_ok_motorOk h, by rfl, by rfl,
    PeglibParser.clampSpeed_mem⟩

/-- C4 (amended): `Parser::parse` always terminates — the canonical fuel,
linear in the token count, is never exhausted — and whenever it fails it
throws a `ParserException` or a `SemanticException` (never a raw
`std::exception`). A program whose first token is `IF` and which contains
no `END` token necessarily fails with one of those two exceptions; it is
not guaranteed to be a `ParserException` (see the counterexample). -/
theorem C4_unterminated_if_terminates_and_throws :
    (∀ tokens, Parser.parse tokens ≠ .error .outOfFuel) ∧
    (∀ tokens e, Parser.parse tokens = .error e → e.isException) ∧
    (∀ tokens ifTok rest, tokens = ifTok :: rest → ifTok.value = "IF" →
      ifTok.type ≠ .eof → (∀ t ∈ tokens, t.value ≠ "END") →
      ∃ e, Parser.parse tokens = .error e ∧ e.isException) :=
  ⟨Parser.parse_no_outOfFuel, fun tokens e h => Parser.parse_error_isException h,
    fun tokens ifTok rest h1 h2 h3 h4 => Parser.parse_if_unterminated h1 h2 h3 h4⟩

/-- C4 counterexample: `IF a < b THEN MOVE up 3` (no `END`) makes
`Parser::parse` throw a `SemanticException` — the body statement trips the
movement-direction rule before the missing `END` is noticed — not the
`ParserException` the claim promises. -/
theorem C4_unterminated_if_counterexample :
    Parser.parse unterminatedIfToks = .error (.semanticError
      "Invalid movement direction: up" "Expected 'forward' or 'backward'") ∧
    (∀ msg line column expected found,
      (PError.semanticError "Invalid movement direction: up"
        "Expected 'forward' or 'backward'") ≠
        .parserError msg line column expected found) ∧
    (∃ t ∈ unterminatedIfToks, t.value = "IF") ∧
    (∃ t ∈ unterminatedIfToks, t.value = "THEN") ∧
    (∀ t ∈ unterminatedIfToks, t.value ≠ "END") := by
  refine ⟨by rfl, ?_, by decide, by decide, by decide⟩
  intro msg line column expected found h
  cases h

end Robo